import Mathlib

/-!
# deck: the `convert` package and parts of the `utils` package

A shallow embedding of `convert/convert.go` (format registry, dispatcher,
service-to-service-package transformer and the document converter) and of
`utils/types.go` (`ErrArray.Error`, `KongClientConfig.ForWorkspace`, the header
map of `GetKongClient`, `CleanAddress`), together with theorems about them.

Conventions of the embedding

* A Go `string` is a Lean `String`, a sequence of runes (byte strings that are
  not valid UTF-8 have no counterpart); `type Format string` is an
  abbreviation.
* A Go pointer `*T` that is only tested against `nil` and dereferenced is an
  `Option T`; dereferencing `none` is a run-time panic, which is an explicit
  outcome (`Outcome.panicked`).
* A Go `error` is its message; `nil` is `none`.
* A Go slice is a `List` (the `nil` slice and the empty slice are both `[]`).
* The Go map literal `conversions` is an association list searched by key.
* The collaborators that live outside `convert.go` (document loader, document
  writer, identifier generator) are fields of `Collaborators`; every call to
  the loader or the writer is recorded in the `World`.
-/

namespace Deck

/-! ## Go run-time outcomes -/

/-- A Go `error` value, identified with its message. -/
abbrev GoError := String

/-- The way a Go function call ends: it returns its results, or the goroutine
panics (here: a nil pointer dereference). -/
inductive Outcome (α : Type) where
  | returned : α → Outcome α
  | panicked : Outcome α
  deriving DecidableEq, Repr

/-- The string `sub` occurs in `s` (as in Go `strings.Contains(s, sub)`). -/
def Contains (s sub : String) : Prop :=
  ∃ pre post : String, s = pre ++ sub ++ post

/-! ## Formats and the conversion table (`convert.go`, lines 12-37) -/

abbrev Format := String

def FormatKongGateway : Format := "kong-gateway"

def FormatKonnect : Format := "konnect"

def AllFormats : List Format := [FormatKongGateway, FormatKonnect]

/-- The map literal `conversions`: one entry, for `FormatKongGateway`, whose
inner map has the single key `FormatKonnect`. -/
def conversions : List (Format × List (Format × Bool)) :=
  [(FormatKongGateway, [(FormatKonnect, true)])]

/-- The message built by `fmt.Errorf("cannot convert from '%s' to '%s' format", from, to)`. -/
def cannotConvertError (frm tgt : Format) : GoError :=
  "cannot convert from '" ++ frm ++ "' to '" ++ tgt ++ "' format"

/-- The function `validConversion(from, to Format) (bool, error)`. -/
def validConversion (frm tgt : Format) : Bool × Option GoError :=
  match conversions.lookup frm with
  | some fromMap =>
    match fromMap.lookup tgt with
    | some _ => (true, none)
    | none => (false, some (cannotConvertError frm tgt))
  | none => (false, some (cannotConvertError frm tgt))

/-! ## Case mapping of the Go standard library (`strings.ToLower`) -/

/-- The ASCII step shared by `strings.ToLower` and `unicode.ToLower`:
`if 'A' <= c && c <= 'Z' { c += 'a' - 'A' }`. -/
def asciiToLower (c : Char) : Char :=
  if 'A' ≤ c ∧ c ≤ 'Z' then Char.ofNat (c.toNat + ('a'.toNat - 'A'.toNat)) else c

/-- The function `unicode.ToLower(r)`: the ASCII step for `r <= MaxASCII`, the
Unicode case table otherwise.  The table for the runes above `MaxASCII` is the
argument `caseTable`. -/
def unicodeToLower (caseTable : Char → Char) (r : Char) : Char :=
  if r.toNat ≤ 0x7F then asciiToLower r else caseTable r

/-- The function `strings.ToLower(s)`: an ASCII-only string is returned as it
is when it has no upper-case letter and is lowered byte by byte otherwise; any
other string is mapped rune by rune through `unicode.ToLower`. -/
def stringsToLower (caseTable : Char → Char) (s : String) : String :=
  if s.data.all (fun c => decide (c.toNat < 0x80)) then
    if s.data.any (fun c => decide ('A' ≤ c ∧ c ≤ 'Z')) then
      String.mk (s.data.map asciiToLower)
    else s
  else String.mk (s.data.map (unicodeToLower caseTable))

/-- The message built by `fmt.Errorf("invalid format: '%v'", key)`. -/
def invalidFormatError (key : String) : GoError :=
  "invalid format: '" ++ key ++ "'"

/-- The function `ParseFormat(key string) (Format, error)`. -/
def ParseFormat (caseTable : Char → Char) (key : String) : Format × Option GoError :=
  let format : Format := stringsToLower caseTable key
  if format = FormatKongGateway then (FormatKongGateway, none)
  else if format = FormatKonnect then (FormatKonnect, none)
  else ("", some (invalidFormatError key))

/-- Two keys differ at most in letter case: they have the same number of
runes, and runes at the same place have the same lower-case form. -/
def sameUpToCase (caseTable : Char → Char) (a b : String) : Prop :=
  List.Forall₂ (fun x y => unicodeToLower caseTable x = unicodeToLower caseTable y)
    a.data b.data

/-! ## The document model (package `file`) -/

/-- Modelled from the spec: an entity of a kind the converter does not look
into (route, plugin, upstream, consumer, certificate, RBAC role), and the
fields of a service other than identifier, name and host; the package `file`
that declares them is not part of the sources.  It is a record of keys and
values. -/
abbrev Entity := List (String × String)

/-- Modelled from the spec: `file.FService`, of which `convert.go` uses `ID`
and `Name` (both `*string`) and the test uses `Host`; the remaining fields are
carried in `Rest`. -/
structure FService where
  ID : Option String := none
  Name : Option String := none
  Host : Option String := none
  Rest : Entity := []
  deriving DecidableEq, Repr

/-- The generated method `FService.DeepCopy`: a copy that shares nothing with
its receiver.  Values of the embedding are immutable, so it is the same value. -/
def FService.DeepCopy (s : FService) : FService := s

/-- Modelled from the spec: `file.Kong`, the payload of an implementation,
with the field `Service *FService` that `convert.go` sets. -/
structure Kong where
  Service : Option FService := none
  deriving DecidableEq, Repr

/-- Modelled from the spec: `file.Implementation`, with the fields `Type` (here `Type_`) and
`Kong *Kong` that `convert.go` sets. -/
structure Implementation where
  Type_ : String := ""
  Kong : Option Kong := none
  deriving DecidableEq, Repr

/-- Modelled from the spec: `file.FServiceVersion`, with the fields `Version
*string` and `Implementation *Implementation` that `convert.go` sets. -/
structure FServiceVersion where
  Version : Option String := none
  Implementation : Option Implementation := none
  deriving DecidableEq, Repr

/-- Modelled from the spec: `file.FServicePackage`, with the fields `Name`,
`Description` (both `*string`) and `Versions` that `convert.go` sets.  The
default value is the zero value `file.FServicePackage{}`. -/
structure FServicePackage where
  Name : Option String := none
  Description : Option String := none
  Versions : List FServiceVersion := []
  deriving DecidableEq, Repr

/-- Modelled from the spec: `file.Content`, the document: one collection per
kind of entity, of which `convert.go` touches `Services` and
`ServicePackages` only. -/
structure Content where
  FormatVersion : String := ""
  Workspace : String := ""
  Services : List FService := []
  ServicePackages : List FServicePackage := []
  Routes : List Entity := []
  Consumers : List Entity := []
  Plugins : List Entity := []
  Upstreams : List Entity := []
  Certificates : List Entity := []
  CACertificates : List Entity := []
  RBACRoles : List Entity := []
  deriving DecidableEq, Repr

/-- The generated method `Content.DeepCopy`; see `FService.DeepCopy`. -/
def Content.DeepCopy (c : Content) : Content := c

/-- Modelled from the spec: the encoding tag of the document writer
(`file.Format`); `convert.go` passes `file.YAML`. -/
inductive FileFormat where
  | JSON
  | YAML
  deriving DecidableEq, Repr

/-- Modelled from the spec: the constant `utils.ImplementationTypeKongGateway`,
the tag of an implementation that is a gateway-native service; its declaration
is not part of the sources. -/
def ImplementationTypeKongGateway : String := "kong-gateway"

/-! ## Collaborators and the world -/

/-- The functions `convert.go` calls but does not define.

* `GetContentFromFiles` is `file.GetContentFromFiles`: the loaded document, or
  the error.
* `WriteContentToFile` is `file.WriteContentToFile`: `none` when the document
  was written, the error otherwise.
* `UUID k` is the string returned by the call number `k` (counted from zero)
  of `utils.UUID()`. -/
structure Collaborators where
  GetContentFromFiles : List String → Except GoError Content
  WriteContentToFile : Content → String → FileFormat → Option GoError
  UUID : Nat → String

/-- A call of the document loader or of the document writer. -/
inductive IOEvent where
  | load (filenames : List String)
  | write (content : Content) (filename : String) (format : FileFormat)
  deriving DecidableEq, Repr

/-- What a run has done to its surroundings so far: the calls of the loader and
of the writer, oldest first, and the number of identifiers drawn. -/
structure World where
  events : List IOEvent := []
  uuidCalls : Nat := 0
  deriving DecidableEq, Repr

/-- The call `utils.UUID()`: the next identifier, and the world after the call. -/
def UUID (env : Collaborators) (w : World) : String × World :=
  (env.UUID w.uuidCalls, { w with uuidCalls := w.uuidCalls + 1 })

/-! ## Service to service package (`convert.go`, lines 91-120) -/

/-- The message built by the `fmt.Errorf` call of
`kongServiceToKonnectServicePackage`, for the dereferenced identifier `id`. -/
def missingNameError (id : String) : GoError :=
  "kong service with id '" ++ id ++ "' doesn't have a name," ++
    "all services must be named to convert them from " ++ FormatKongGateway ++
    " to " ++ FormatKonnect ++ " format"

/-- The function `kongServiceToKonnectServicePackage(service file.FService)
(file.FServicePackage, error)`.  On the branch `service.Name == nil` the
arguments of `fmt.Errorf` include `*service.ID`, which panics when `service.ID`
is `nil`. -/
def kongServiceToKonnectServicePackage (env : Collaborators) (w : World) (service : FService) :
    Outcome (FServicePackage × Option GoError) × World :=
  match service.Name with
  | none =>
    match service.ID with
    | none => (Outcome.panicked, w)
    | some id => (Outcome.returned ({}, some (missingNameError id)), w)
  | some serviceName =>
    let serviceCopy := service.DeepCopy
    let serviceCopy := { serviceCopy with Name := none }
    let (uuid, w) := UUID env w
    let serviceCopy := { serviceCopy with ID := some uuid }
    (Outcome.returned
      ({ Name := some serviceName
         Description := some ("placeholder description for " ++ serviceName ++ " service package")
         Versions :=
          [{ Version := some "v1"
             Implementation := some
              { Type_ := ImplementationTypeKongGateway
                Kong := some { Service := some serviceCopy } } }] },
       none), w)

/-- The package a call of `kongServiceToKonnectServicePackage` returned (the
zero package when it panicked). -/
def Outcome.resultPackage : Outcome (FServicePackage × Option GoError) → FServicePackage
  | Outcome.returned (sp, _) => sp
  | Outcome.panicked => {}

/-! ## The document converter (`convert.go`, lines 51-89) -/

/-- The loop `for _, service := range outputContent.Services` of
`convertKongGatewayToKonnect`, run on the services still to visit and the
current `outputContent.ServicePackages`.  It ends with the final package
collection, or leaves the function early with an error (`Except.error`), or
panics. -/
def rangeServices (env : Collaborators) :
    List FService → List FServicePackage → World →
      Outcome (Except GoError (List FServicePackage)) × World
  | [], packages, w => (Outcome.returned (Except.ok packages), w)
  | service :: rest, packages, w =>
    match kongServiceToKonnectServicePackage env w service with
    | (Outcome.panicked, w) => (Outcome.panicked, w)
    | (Outcome.returned (_, some err), w) => (Outcome.returned (Except.error err), w)
    | (Outcome.returned (servicePackage, none), w) =>
      rangeServices env rest (packages ++ [servicePackage]) w

/-- The function `convertKongGatewayToKonnect(inputFilename, outputFilename
string) error`. -/
def convertKongGatewayToKonnect (env : Collaborators) (w : World)
    (inputFilename outputFilename : String) : Outcome (Option GoError) × World :=
  let w := { w with events := w.events ++ [IOEvent.load [inputFilename]] }
  match env.GetContentFromFiles [inputFilename] with
  | Except.error err => (Outcome.returned (some err), w)
  | Except.ok inputContent =>
    let outputContent := inputContent.DeepCopy
    match rangeServices env outputContent.Services outputContent.ServicePackages w with
    | (Outcome.panicked, w) => (Outcome.panicked, w)
    | (Outcome.returned (Except.error err), w) => (Outcome.returned (some err), w)
    | (Outcome.returned (Except.ok packages), w) =>
      let outputContent := { outputContent with ServicePackages := packages }
      let outputContent := { outputContent with Services := [] }
      let w := { w with events :=
        w.events ++ [IOEvent.write outputContent outputFilename FileFormat.YAML] }
      match env.WriteContentToFile outputContent outputFilename FileFormat.YAML with
      | some err => (Outcome.returned (some err), w)
      | none => (Outcome.returned none, w)

/-- The function `Convert(inputFilename, outputFilename string, from, to
Format) error`. -/
def Convert (env : Collaborators) (w : World) (inputFilename outputFilename : String)
    (frm tgt : Format) : Outcome (Option GoError) × World :=
  match validConversion frm tgt with
  | (false, err) => (Outcome.returned err, w)
  | (true, _) =>
    if frm = FormatKongGateway ∧ tgt = FormatKonnect then
      convertKongGatewayToKonnect env w inputFilename outputFilename
    else
      (Outcome.returned (some (cannotConvertError frm tgt)), w)

/-! ## Sample surroundings -/

/-- The services embedded in the versions of a service package, one entry per
version (`none` for a version without an embedded service); the traversal
`v.Implementation.Kong.Service` of the test helper `zeroOutID`. -/
def FServicePackage.embeddedServices (sp : FServicePackage) : List (Option FService) :=
  sp.Versions.map fun v =>
    (v.Implementation.bind fun i => i.Kong).bind fun k => k.Service

/-- Surroundings for the examples: a loader that knows the single file
`input.yaml`, holding `doc`; a writer that answers `writeErr`; a generator
whose call number `k` returns `k + 1` letters `u`. -/
def sampleEnv (doc : Content) (writeErr : Option GoError) : Collaborators where
  GetContentFromFiles := fun filenames =>
    if filenames = ["input.yaml"] then Except.ok doc
    else Except.error "open: no such file or directory"
  WriteContentToFile := fun _ _ _ => writeErr
  UUID := fun k => String.mk (List.replicate (k + 1) 'u')

/-- The documents handed to the writer in this world, oldest first. -/
def World.written (w : World) : List Content :=
  w.events.filterMap fun e =>
    match e with
    | IOEvent.write content _ _ => some content
    | IOEvent.load _ => none

/-- The document of the conversion test: one service, `foo` at
`foo.example.com`, and nothing else. -/
def sampleDoc : Content :=
  { Services := [{ Name := some "foo", Host := some "foo.example.com" }]
    Routes := [[("name", "r1")]] }

/-- The document `sampleDoc` with a service package already in it. -/
def sampleDocWithPackage : Content :=
  { sampleDoc with ServicePackages := [{ Name := some "old" }] }

/-- Modelled from the spec: what the document loader
`file.GetContentFromFiles`, whose source is not part of the sources, has checked
of the services of a document it returns (it fails on schema-invalid content):
every service has a name or an identifier. -/
def Content.schemaValid (c : Content) : Bool :=
  c.Services.all fun s => s.Name.isSome || s.ID.isSome

/-- A document whose second service has an identifier and no name, and whose
third service has a name. -/
def sampleDocNameless : Content :=
  { Services := [{ Name := some "foo", Host := some "foo.example.com" },
                 { ID := some "service-id", Host := some "mockbin.org" },
                 { Name := some "bar", Host := some "bar.example.com" }] }

/-! ## Identifiers of a document -/

/-- Modelled from the spec: the identifiers an entity of an opaque kind
carries, the values of its keys `id`. -/
def entityIdentifiers (e : Entity) : List String :=
  (e.filter fun kv => kv.1 == "id").map Prod.snd

/-- The identifiers of a service: its `ID` when it has one, and the identifiers
among its remaining fields. -/
def FService.identifiers (s : FService) : List String :=
  s.ID.toList ++ entityIdentifiers s.Rest

/-- The identifiers of a service package: those of the services embedded in
its versions. -/
def FServicePackage.identifiers (sp : FServicePackage) : List String :=
  sp.embeddedServices.flatMap fun o =>
    match o with
    | some s => s.identifiers
    | none => []

/-- The identifiers of a document, with repetitions: those of its services, of
its service packages and of its other entities. -/
def Content.identifiers (c : Content) : List String :=
  c.Services.flatMap FService.identifiers ++
  c.ServicePackages.flatMap FServicePackage.identifiers ++
  (c.Routes ++ c.Consumers ++ c.Plugins ++ c.Upstreams ++ c.Certificates ++
    c.CACertificates ++ c.RBACRoles).flatMap entityIdentifiers

/-- Modelled from the spec: the contract of the identifier generator
`utils.UUID`, whose source is not part of the sources: `newID() → string`,
globally unique across the process lifetime, distinct from any identifier in
the document.  Two calls never return the same string, and no call returns an
identifier that occurs in `used`. -/
def GloballyUnique (generator : Nat → String) (used : List String) : Prop :=
  Function.Injective generator ∧ ∀ k, generator k ∉ used

/-- The packages the loop of `convertKongGatewayToKonnect` appends for
`services` when the generator was called `k` times before the loop: one call of
`kongServiceToKonnectServicePackage` per service, each drawing one identifier. -/
def convertedPackages (env : Collaborators) : Nat → List FService → List FServicePackage
  | _, [] => []
  | k, service :: rest =>
    (kongServiceToKonnectServicePackage env { uuidCalls := k } service).1.resultPackage ::
      convertedPackages env (k + 1) rest

/-- A document with identifiers in it: two named services, one of which has an
identifier, a service package that embeds a service, and a route. -/
def sampleDocWithIds : Content :=
  { Services := [{ ID := some "s1", Name := some "foo", Host := some "foo.example.com" },
                 { Name := some "bar", Host := some "bar.example.com",
                   Rest := [("id", "nested"), ("port", "80")] }]
    ServicePackages :=
      [{ Name := some "old"
         Versions := [{ Version := some "v0"
                        Implementation := some
                          { Type_ := ImplementationTypeKongGateway
                            Kong := some { Service := some { ID := some "p1" } } } }] }]
    Routes := [[("id", "r1"), ("name", "route")]] }

/-! ## Package `utils` (`utils/types.go`): errors and client configuration -/

/-- The function `strconv.Itoa(i)` on a number that is not negative, here the
length of a slice: its decimal digits. -/
def strconvItoa (i : Nat) : String := Nat.repr i

/-- The text the verb `%v` of `fmt.Sprintf` prints for a value of type `error`:
its message, and `<nil>` for the nil error. -/
def fmtError (err : Option GoError) : String :=
  match err with
  | some message => message
  | none => "<nil>"

/-- The type `ErrArray`, with its field `Errors []error`. -/
structure ErrArray where
  Errors : List (Option GoError) := []
  deriving DecidableEq, Repr

/-- The method `func (e ErrArray) Error() string`. -/
def ErrArray.Error (e : ErrArray) : String :=
  if e.Errors.length = 0 then "nil"
  else
    let res := strconvItoa e.Errors.length ++ " errors occurred:\n"
    e.Errors.foldl (fun res err => res ++ ("\t" ++ fmtError err ++ "\n")) res

/-- The type `KongClientConfig`.  The field `HTTPClient *http.Client` is only
stored and copied here: it is `none` for `nil` and the address of the client
otherwise. -/
structure KongClientConfig where
  Address : String := ""
  Workspace : String := ""
  TLSServerName : String := ""
  TLSCACert : String := ""
  TLSSkipVerify : Bool := false
  Debug : Bool := false
  SkipWorkspaceCrud : Bool := false
  Headers : List String := []
  HTTPClient : Option Nat := none
  deriving DecidableEq, Repr

/-- The method `func (kc *KongClientConfig) ForWorkspace(name string)
KongClientConfig`.  The receiver is a pointer: `kc` is the configuration it
points to, `none` for the nil pointer, at which `*kc` panics.  The second
component is the configuration the receiver points to after the call. -/
def KongClientConfig.ForWorkspace (kc : Option KongClientConfig) (name : String) :
    Outcome KongClientConfig × Option KongClientConfig :=
  match kc with
  | none => (Outcome.panicked, none)
  | some pointee =>
    let result := pointee
    let result := { result with Workspace := name }
    (Outcome.returned result, some pointee)

/-! ## Package `utils`: the header map of `GetKongClient` (lines 133-143) -/

/-- The call `strings.Index(s, ":")` on the runes of `s`: the position of the
first `:`, and `none` where Go returns `-1`. -/
def stringsIndexColon : List Char → Option Nat
  | [] => none
  | c :: rest => if c = ':' then some 0 else (stringsIndexColon rest).map (· + 1)

/-- The call `strings.SplitN(s, ":", 2)`: the string itself when it has no `:`,
and otherwise `s[:m]` and `s[m+1:]` for the position `m` of its first `:`. -/
def stringsSplitN2 (s : String) : List String :=
  match stringsIndexColon s.data with
  | none => [s]
  | some m => [String.mk (s.data.take m), String.mk (s.data.drop (m + 1))]

/-- The type `http.Header`, a `map[string][]string`: the list of its keys, each
with its value. -/
abbrev Header := List (String × List String)

/-- The map assignment `headers[key] = value`: the value of an existing key is
replaced, a new key is added. -/
def Header.assign : Header → String → List String → Header
  | [], key, value => [(key, value)]
  | (k, v) :: rest, key, value =>
    if k = key then (key, value) :: rest else (k, v) :: Header.assign rest key value

/-- The loop `for _, keyValue := range opt.Headers` of `GetKongClient`, started
on the map `headers`. -/
def rangeHeaders (optHeaders : List String) (headers : Header) : Header :=
  optHeaders.foldl
    (fun headers keyValue =>
      let split := stringsSplitN2 keyValue
      if split.length ≥ 2 then Header.assign headers (split.getD 0 "") [split.getD 1 ""]
      else headers)
    headers

/-- The surroundings of `GetKongClient` that decide whether its header block
is reached.

* `AppendCertsFromPEM` is `certPool.AppendCertsFromPEM` of `crypto/x509` on
  the new pool: whether a certificate was found in the text.
* `DefaultTransportIsTransport` tells whether the variable
  `http.DefaultTransport` holds a `*http.Transport`, as it does unless the
  program has replaced it; the type assertion of line 130 panics otherwise. -/
structure ClientSurroundings where
  AppendCertsFromPEM : String → Bool
  DefaultTransportIsTransport : Bool := true

/-- The function `GetKongClient` from its start to the end of its header block
(lines 107-143), with the header map as its result: the error of the
certificate check (lines 117-122), which returns before the block; the panic of
the type assertion (line 130); and otherwise the header map that was built and
handed to `kong.HTTPClientWithHeaders`, `none` when `len(opt.Headers) > 0` fails
and no map is built.  The part of the function after the block (address,
client) does not touch the map. -/
def GetKongClientHeaders (env : ClientSurroundings) (opt : KongClientConfig) :
    Outcome (Except GoError (Option Header)) :=
  let ok := if opt.TLSCACert ≠ "" then env.AppendCertsFromPEM opt.TLSCACert else true
  if !ok then Outcome.returned (Except.error "failed to load TLSCACert")
  else if !env.DefaultTransportIsTransport then Outcome.panicked
  else if opt.Headers.length > 0 then
    Outcome.returned (Except.ok (some (rangeHeaders opt.Headers [])))
  else Outcome.returned (Except.ok none)

/-- The text of a header string before its first `:` (the whole string when it
has none). -/
def textBeforeFirstColon (s : String) : String :=
  String.mk (s.data.takeWhile fun c => c != ':')

/-- The text of a header string after its first `:` (empty when it has none). -/
def textAfterFirstColon (s : String) : String :=
  String.mk ((s.data.dropWhile fun c => c != ':').drop 1)

/-! ## Package `utils`: `CleanAddress` (lines 178-182) -/

/-- The regular expression `[/]+$` matches at the start of the text `rest` that
remains: one `/` or more, up to the end of the text. -/
def matchSlashesToEnd (rest : List Char) : Bool :=
  !rest.isEmpty && rest.all fun c => c == '/'

/-- The call `re.ReplaceAllString(address, "")` for `re = [/]+$`, on the runes
of the address, scanned from the left: at the leftmost place where the
expression matches, the match, which reaches the end of the text, is replaced by
the empty string; a rune at which it does not match is copied. -/
def replaceAllSlashesAtEnd : List Char → List Char
  | [] => []
  | c :: rest =>
    if matchSlashesToEnd (c :: rest) then [] else c :: replaceAllSlashesAtEnd rest

/-- The function `CleanAddress(address string) string`. -/
def CleanAddress (address : String) : String :=
  String.mk (replaceAllSlashesAtEnd address.data)

/-! ## Theorems: the format registry -/

/-- The table read as a function: the one accepted pair, and the error for
every other pair; the boolean is `true` iff the error is `nil`. -/
theorem validConversion_registry (frm tgt : Format) :
    validConversion frm tgt =
      (if frm = FormatKongGateway ∧ tgt = FormatKonnect then (true, none)
       else (false, some (cannotConvertError frm tgt))) ∧
    ((validConversion frm tgt).1 = true ↔ (validConversion frm tgt).2 = none) := by
  have key : validConversion frm tgt =
      if frm = FormatKongGateway ∧ tgt = FormatKonnect then (true, none)
      else (false, some (cannotConvertError frm tgt)) := by
    unfold validConversion conversions
    by_cases h1 : frm = FormatKongGateway
    · by_cases h2 : tgt = FormatKonnect
      · simp [List.lookup, h1, h2]
      · have h2b : (tgt == FormatKonnect) = false := by simpa using h2
        simp [List.lookup, h1, h2, h2b]
    · have h1b : (frm == FormatKongGateway) = false := by simpa using h1
      simp [List.lookup, h1, h1b]
  refine ⟨key, ?_⟩
  rw [key]; split <;> simp

/-- C1: for every pair of formats, `validConversion` returns `(true, nil)`
exactly when `from` is `kong-gateway` and `to` is `konnect`, and returns
`(false, err)` with a non-nil `err` exactly for every other pair (among them the
empty pair, the two identity pairs and the reverse pair); the boolean is
`true` iff the error is `nil`. -/
theorem validConversion_accepts_iff (frm tgt : Format) :
    (validConversion frm tgt = (true, none) ↔
        (frm = FormatKongGateway ∧ tgt = FormatKonnect)) ∧
    ((∃ err, validConversion frm tgt = (false, some err)) ↔
        ¬ (frm = FormatKongGateway ∧ tgt = FormatKonnect)) ∧
    ((validConversion frm tgt).1 = true ↔ (validConversion frm tgt).2 = none) ∧
    (∃ err, validConversion "" "" = (false, some err)) ∧
    (∃ err, validConversion FormatKongGateway FormatKongGateway = (false, some err)) ∧
    (∃ err, validConversion FormatKonnect FormatKonnect = (false, some err)) ∧
    (∃ err, validConversion FormatKonnect FormatKongGateway = (false, some err)) := by
  have key := (validConversion_registry frm tgt).1
  refine ⟨?_, ?_, ?_, ⟨_, rfl⟩, ⟨_, rfl⟩, ⟨_, rfl⟩, ⟨_, rfl⟩⟩
  · rw [key]; split <;> simp_all
  · rw [key]; split <;> simp_all
  · rw [key]; split <;> simp_all

/-- The two paths of `strings.ToLower` compute the same string: every rune
replaced by its `unicode.ToLower`. -/
theorem stringsToLower_eq_map (caseTable : Char → Char) (s : String) :
    stringsToLower caseTable s = String.mk (s.data.map (unicodeToLower caseTable)) := by
  unfold stringsToLower
  split
  · rename_i hascii
    have hmap : s.data.map (unicodeToLower caseTable) = s.data.map asciiToLower := by
      apply List.map_congr_left
      intro c hc
      have hlt : c.toNat < 0x80 := by simpa using List.all_eq_true.mp hascii c hc
      have hle : c.toNat ≤ 0x7F := by omega
      simp [unicodeToLower, hle]
    split
    · rw [hmap]
    · rename_i hupper
      have hid : s.data.map asciiToLower = s.data := by
        conv_rhs => rw [← List.map_id s.data]
        apply List.map_congr_left
        intro c hc
        have hnot : ¬ ('A' ≤ c ∧ c ≤ 'Z') := by
          intro hAZ
          exact hupper (List.any_eq_true.mpr ⟨c, hc, by simpa using hAZ⟩)
        simp [asciiToLower, hnot]
      rw [hmap, hid]
  · rfl

/-- Keys that differ at most in letter case have the same lower-case form. -/
theorem stringsToLower_sameUpToCase (caseTable : Char → Char) (a b : String)
    (h : sameUpToCase caseTable a b) :
    stringsToLower caseTable a = stringsToLower caseTable b := by
  have hmap : ∀ xs ys : List Char,
      List.Forall₂ (fun x y => unicodeToLower caseTable x = unicodeToLower caseTable y) xs ys →
      xs.map (unicodeToLower caseTable) = ys.map (unicodeToLower caseTable) := by
    intro xs ys hxy
    induction hxy with
    | nil => rfl
    | cons hhead _ ih => simp [hhead, ih]
  rw [stringsToLower_eq_map, stringsToLower_eq_map, hmap a.data b.data h]

/-- C9: for every key, `ParseFormat` returns `kong-gateway` without an error
exactly when the lower-cased key is `kong-gateway`, returns `konnect` without
an error exactly when the lower-cased key is `konnect`, and returns the empty
format with an error for every other key; so it succeeds iff the lower-cased
key is one of the two, two keys that differ only in letter case get the same
format and succeed or fail together, and `koNNect` parses as `konnect` does. -/
theorem ParseFormat_case_insensitive (caseTable : Char → Char) (key : String) :
    (ParseFormat caseTable key = (FormatKongGateway, none) ↔
        stringsToLower caseTable key = "kong-gateway") ∧
    (ParseFormat caseTable key = (FormatKonnect, none) ↔
        stringsToLower caseTable key = "konnect") ∧
    (ParseFormat caseTable key = ("", some (invalidFormatError key)) ↔
        ¬ (stringsToLower caseTable key = "kong-gateway" ∨
           stringsToLower caseTable key = "konnect")) ∧
    ((ParseFormat caseTable key).2 = none ↔
        (stringsToLower caseTable key = "kong-gateway" ∨
         stringsToLower caseTable key = "konnect")) ∧
    (∀ other : String, sameUpToCase caseTable key other →
        (ParseFormat caseTable other).1 = (ParseFormat caseTable key).1 ∧
        ((ParseFormat caseTable other).2 = none ↔ (ParseFormat caseTable key).2 = none)) ∧
    sameUpToCase caseTable "koNNect" "konnect" ∧
    ParseFormat caseTable "koNNect" = (FormatKonnect, none) ∧
    ParseFormat caseTable "konnect" = (FormatKonnect, none) ∧
    ParseFormat caseTable "kong-gateway" = (FormatKongGateway, none) ∧
    ParseFormat caseTable "k42" = ("", some (invalidFormatError "k42")) := by
  have hfold : sameUpToCase caseTable "koNNect" "konnect" := by
    unfold sameUpToCase
    repeat first
      | exact List.Forall₂.nil
      | refine List.Forall₂.cons (by simp [unicodeToLower, asciiToLower]; try decide) ?_
  have hdiff : ("kong-gateway" : String) ≠ "konnect" := by decide
  have hparse : ∀ k : String, ParseFormat caseTable k =
      if stringsToLower caseTable k = "kong-gateway" then (FormatKongGateway, none)
      else if stringsToLower caseTable k = "konnect" then (FormatKonnect, none)
      else ("", some (invalidFormatError k)) := fun _ => rfl
  refine ⟨?_, ?_, ?_, ?_, ?_, hfold, ?_, ?_, ?_, ?_⟩
  · rw [hparse]; split_ifs <;> simp_all [FormatKongGateway, FormatKonnect]
  · rw [hparse]; split_ifs <;> simp_all [FormatKongGateway, FormatKonnect]
  · rw [hparse]; split_ifs <;> simp_all [FormatKongGateway, FormatKonnect]
  · rw [hparse]; split_ifs <;> simp_all [FormatKongGateway, FormatKonnect]
  · intro other hsame
    rw [hparse other, hparse key, ← stringsToLower_sameUpToCase caseTable key other hsame]
    split_ifs <;> simp
  · have hlow : stringsToLower caseTable "koNNect" = "konnect" := by
      rw [stringsToLower_sameUpToCase caseTable _ _ hfold, stringsToLower_eq_map]
      simp [unicodeToLower, asciiToLower]
    rw [hparse, hlow]; simp
  · have hlow : stringsToLower caseTable "konnect" = "konnect" := by
      rw [stringsToLower_eq_map]
      simp [unicodeToLower, asciiToLower]
    rw [hparse, hlow]; simp
  · have hlow : stringsToLower caseTable "kong-gateway" = "kong-gateway" := by
      rw [stringsToLower_eq_map]
      simp [unicodeToLower, asciiToLower]
    rw [hparse, hlow]; simp
  · have hlow : stringsToLower caseTable "k42" = "k42" := by
      rw [stringsToLower_eq_map]
      simp [unicodeToLower, asciiToLower]
    rw [hparse, hlow]; simp

/-! ## Theorems: service to service package -/

/-- C2 (the claim fails as stated): called on a service with neither a name
nor an identifier, here the service of the test with its identifier left out,
the function returns nothing, neither an error nor a package: evaluating
`*service.ID` panics. -/
theorem kongService_nameless_without_id_counterexample :
    kongServiceToKonnectServicePackage (sampleEnv {} none) {}
        { Host := some "foo.example.com" } = (Outcome.panicked, {}) ∧
    ¬ ∃ result,
      (kongServiceToKonnectServicePackage (sampleEnv {} none) {}
        { Host := some "foo.example.com" }).1 = Outcome.returned result := by
  refine ⟨rfl, ?_⟩
  simp [kongServiceToKonnectServicePackage]

/-- C2 (amended): for every service that has no name and has an identifier,
the function returns the zero package and an error, whose message holds the
identifier and the sentence that all services must be named to convert them
from kong-gateway to konnect format; no identifier is drawn and the world is
as it was. -/
theorem kongService_nameless_with_id (env : Collaborators) (w : World) (service : FService)
    (id : String) (hname : service.Name = none) (hid : service.ID = some id) :
    kongServiceToKonnectServicePackage env w service =
        (Outcome.returned ({}, some (missingNameError id)), w) ∧
    Contains (missingNameError id) id ∧
    Contains (missingNameError id)
      "all services must be named to convert them from kong-gateway to konnect format" := by
  refine ⟨?_, ?_, ?_⟩
  · simp [kongServiceToKonnectServicePackage, hname, hid]
  · exact ⟨"kong service with id '", "' doesn't have a name," ++
      "all services must be named to convert them from " ++ FormatKongGateway ++
      " to " ++ FormatKonnect ++ " format", by
        simp [missingNameError, String.append_assoc]⟩
  · exact ⟨"kong service with id '" ++ id ++ "' doesn't have a name,", "", by
      simp [missingNameError, FormatKongGateway, FormatKonnect, String.append_assoc]⟩

/-- Witness of C2 (amended): the service of the test, with the identifier
`service-id`, a host and no name. -/
theorem kongService_nameless_with_id_witness :
    kongServiceToKonnectServicePackage (sampleEnv {} none) {}
        { ID := some "service-id", Host := some "foo.example.com" } =
        (Outcome.returned ({}, some (missingNameError "service-id")), {}) ∧
    Contains (missingNameError "service-id") "service-id" ∧
    Contains (missingNameError "service-id")
      "all services must be named to convert them from kong-gateway to konnect format" :=
  kongService_nameless_with_id (sampleEnv {} none) {}
    { ID := some "service-id", Host := some "foo.example.com" } "service-id" rfl rfl

/-- C3: for every service with a non-empty name `n`, whatever its other
fields, the function returns, without an error, a service package whose name
is `n`, whose description is `"placeholder description for " ++ n ++
" service package"`, and whose versions are exactly one entry, of version
`"v1"`, with an implementation of type kong-gateway that embeds a service. -/
theorem kongService_named_package (env : Collaborators) (w : World) (service : FService)
    (n : String) (hname : service.Name = some n) (_hne : n ≠ "") :
    ∃ sp impl kong embedded,
      (kongServiceToKonnectServicePackage env w service).1 = Outcome.returned (sp, none) ∧
      sp.Name = some n ∧
      sp.Description = some ("placeholder description for " ++ n ++ " service package") ∧
      sp.Versions = [{ Version := some "v1", Implementation := some impl }] ∧
      sp.Versions.length = 1 ∧
      impl.Type_ = ImplementationTypeKongGateway ∧
      impl.Type_ = "kong-gateway" ∧
      impl.Kong = some kong ∧
      kong.Service = some embedded := by
  simp [kongServiceToKonnectServicePackage, hname, UUID, ImplementationTypeKongGateway]

/-- Witness of C3: the service of the test, `foo` at `foo.example.com`. -/
theorem kongService_named_package_witness :
    ∃ sp impl kong embedded,
      (kongServiceToKonnectServicePackage (sampleEnv {} none) {}
        { Name := some "foo", Host := some "foo.example.com" }).1 =
          Outcome.returned (sp, none) ∧
      sp.Name = some "foo" ∧
      sp.Description = some ("placeholder description for " ++ "foo" ++ " service package") ∧
      sp.Versions = [{ Version := some "v1", Implementation := some impl }] ∧
      sp.Versions.length = 1 ∧
      impl.Type_ = ImplementationTypeKongGateway ∧
      impl.Type_ = "kong-gateway" ∧
      impl.Kong = some kong ∧
      kong.Service = some embedded :=
  kongService_named_package (sampleEnv {} none) {}
    { Name := some "foo", Host := some "foo.example.com" } "foo" rfl (by decide)

/-- C4: for every service with a name, the package returned has one embedded
service; it has no name, its identifier is the string the generator returned
at this call (whatever the identifier of the input was), and its other fields
are those of the input service, which the statement reads after the call;
exactly one identifier is drawn and nothing else in the world changes. -/
theorem kongService_embedded_service (env : Collaborators) (w : World) (service : FService)
    (n : String) (hname : service.Name = some n) :
    ∃ sp embedded,
      kongServiceToKonnectServicePackage env w service =
        (Outcome.returned (sp, none), { w with uuidCalls := w.uuidCalls + 1 }) ∧
      sp.embeddedServices = [some embedded] ∧
      embedded.Name = none ∧
      embedded.ID = some (UUID env w).1 ∧
      embedded.Host = service.Host ∧
      embedded.Rest = service.Rest ∧
      embedded = { service with Name := none, ID := some (env.UUID w.uuidCalls) } := by
  simp [kongServiceToKonnectServicePackage, hname, UUID, FServicePackage.embeddedServices,
    FService.DeepCopy]

/-- Witness of C4: a named service that already has an identifier. -/
theorem kongService_embedded_service_witness :
    ∃ sp embedded,
      kongServiceToKonnectServicePackage (sampleEnv {} none) {}
          { ID := some "old-id", Name := some "foo", Host := some "foo.example.com" } =
        (Outcome.returned (sp, none), { ({} : World) with uuidCalls := ({} : World).uuidCalls + 1 }) ∧
      sp.embeddedServices = [some embedded] ∧
      embedded.Name = none ∧
      embedded.ID = some (UUID (sampleEnv {} none) {}).1 ∧
      embedded.Host = some "foo.example.com" ∧
      embedded.Rest = [] ∧
      embedded = { ({ ID := some "old-id", Name := some "foo", Host := some "foo.example.com" }
          : FService) with Name := none, ID := some ((sampleEnv {} none).UUID 0) } :=
  kongService_embedded_service (sampleEnv {} none) {}
    { ID := some "old-id", Name := some "foo", Host := some "foo.example.com" } "foo" rfl

/-- C10 (the claim fails as stated): the service whose name is present and is
the empty string is converted: the function returns no error, and a service
package whose name is the empty string. -/
theorem kongService_empty_name_counterexample :
    kongServiceToKonnectServicePackage (sampleEnv {} none) {}
        { ID := some "service-id", Name := some "", Host := some "foo.example.com" } =
      (Outcome.returned
        ({ Name := some ""
           Description := some "placeholder description for  service package"
           Versions :=
            [{ Version := some "v1"
               Implementation := some
                { Type_ := "kong-gateway"
                  Kong := some
                    { Service := some
                        { ID := some "u", Name := none, Host := some "foo.example.com" } } } }] },
         none),
       { events := [], uuidCalls := 1 }) ∧
    ¬ ∃ sp err,
      (kongServiceToKonnectServicePackage (sampleEnv {} none) {}
        { ID := some "service-id", Name := some "", Host := some "foo.example.com" }).1 =
          Outcome.returned (sp, some err) := by
  refine ⟨rfl, ?_⟩
  simp [kongServiceToKonnectServicePackage]

/-- C10 (amended): the function tests the name against `nil` only; for every
service whose name is present and is the empty string it returns no error, and
a service package whose name is the empty string and whose description is
`"placeholder description for  service package"`. -/
theorem kongService_empty_name_accepted (env : Collaborators) (w : World) (service : FService)
    (hname : service.Name = some "") :
    ∃ sp,
      (kongServiceToKonnectServicePackage env w service).1 = Outcome.returned (sp, none) ∧
      sp.Name = some "" ∧
      sp.Description = some "placeholder description for  service package" ∧
      sp.Versions.length = 1 := by
  simp [kongServiceToKonnectServicePackage, hname, UUID]

/-- Witness of C10 (amended): a service with an identifier, a host and the
empty name. -/
theorem kongService_empty_name_accepted_witness :
    ∃ sp,
      (kongServiceToKonnectServicePackage (sampleEnv {} none) {}
        { ID := some "service-id", Name := some "", Host := some "foo.example.com" }).1 =
          Outcome.returned (sp, none) ∧
      sp.Name = some "" ∧
      sp.Description = some "placeholder description for  service package" ∧
      sp.Versions.length = 1 :=
  kongService_empty_name_accepted (sampleEnv {} none) {}
    { ID := some "service-id", Name := some "", Host := some "foo.example.com" } rfl

/-! ## Lemmas: the loop over the services -/

/-- One step of the loop on a named service: the package is appended and the
loop goes on with one more identifier drawn. -/
theorem rangeServices_cons_named (env : Collaborators) (service : FService)
    (rest : List FService) (packages : List FServicePackage) (w : World) (n : String)
    (hname : service.Name = some n) :
    rangeServices env (service :: rest) packages w =
      rangeServices env rest
        (packages ++ [(kongServiceToKonnectServicePackage env w service).1.resultPackage])
        { w with uuidCalls := w.uuidCalls + 1 } := by
  simp [rangeServices, kongServiceToKonnectServicePackage, hname, UUID,
    Outcome.resultPackage]

/-- The loop calls neither the loader nor the writer. -/
theorem rangeServices_events (env : Collaborators) (services : List FService) :
    ∀ (packages : List FServicePackage) (w : World),
      (rangeServices env services packages w).2.events = w.events := by
  induction services with
  | nil => intro packages w; rfl
  | cons service rest ih =>
    intro packages w
    cases hname : service.Name with
    | none =>
      cases hid : service.ID with
      | none => simp [rangeServices, kongServiceToKonnectServicePackage, hname, hid]
      | some id => simp [rangeServices, kongServiceToKonnectServicePackage, hname, hid]
    | some n =>
      rw [rangeServices_cons_named env service rest packages w n hname, ih]

/-- When every service has a name the loop ends normally: the final collection
is the initial one followed by one package per service, in order and with the
names of the services. -/
theorem rangeServices_all_named (env : Collaborators) (services : List FService) :
    ∀ (packages : List FServicePackage) (w : World),
      (∀ s ∈ services, s.Name ≠ none) →
      ∃ added : List FServicePackage,
        rangeServices env services packages w =
          (Outcome.returned (Except.ok (packages ++ added)),
            { w with uuidCalls := w.uuidCalls + services.length }) ∧
        added.map (fun sp => sp.Name) = services.map (fun s => s.Name) := by
  induction services with
  | nil => intro packages w _; exact ⟨[], by simp [rangeServices]⟩
  | cons service rest ih =>
    intro packages w hall
    obtain ⟨n, hname⟩ := Option.ne_none_iff_exists'.mp (hall service (by simp))
    obtain ⟨added, hrun, hnames⟩ :=
      ih (packages ++ [(kongServiceToKonnectServicePackage env w service).1.resultPackage])
        { w with uuidCalls := w.uuidCalls + 1 } (fun s hs => hall s (by simp [hs]))
    refine ⟨(kongServiceToKonnectServicePackage env w service).1.resultPackage :: added, ?_, ?_⟩
    · rw [rangeServices_cons_named env service rest packages w n hname, hrun]
      simp [Nat.add_assoc, Nat.add_comm 1]
    · simp [hnames, kongServiceToKonnectServicePackage, hname, UUID, Outcome.resultPackage]

/-- When some service has no name the loop does not end normally. -/
theorem rangeServices_some_nameless (env : Collaborators) (services : List FService) :
    ∀ (packages : List FServicePackage) (w : World),
      (∃ s ∈ services, s.Name = none) →
      ∀ final, (rangeServices env services packages w).1 ≠ Outcome.returned (Except.ok final) := by
  induction services with
  | nil => intro _ _ h; simp at h
  | cons service rest ih =>
    intro packages w h final
    cases hname : service.Name with
    | none =>
      cases hid : service.ID with
      | none => simp [rangeServices, kongServiceToKonnectServicePackage, hname, hid]
      | some id => simp [rangeServices, kongServiceToKonnectServicePackage, hname, hid]
    | some n =>
      rw [rangeServices_cons_named env service rest packages w n hname]
      apply ih
      obtain ⟨s, hs, hnone⟩ := h
      rcases List.mem_cons.mp hs with rfl | hrest
      · simp [hname] at hnone
      · exact ⟨s, hrest, hnone⟩

/-- The loop stops at the first service without a name: with the error that
names its identifier when it has one, with a panic when it has none. -/
theorem rangeServices_first_nameless (env : Collaborators) (named : List FService)
    (service : FService) (rest : List FService) (hname : service.Name = none) :
    ∀ (packages : List FServicePackage) (w : World),
      (∀ s ∈ named, s.Name ≠ none) →
      (rangeServices env (named ++ service :: rest) packages w).1 =
        match service.ID with
        | some id => Outcome.returned (Except.error (missingNameError id))
        | none => Outcome.panicked := by
  induction named with
  | nil =>
    intro packages w _
    cases hid : service.ID with
    | none => simp [rangeServices, kongServiceToKonnectServicePackage, hname, hid]
    | some id => simp [rangeServices, kongServiceToKonnectServicePackage, hname, hid]
  | cons first others ih =>
    intro packages w hall
    obtain ⟨n, hn⟩ := Option.ne_none_iff_exists'.mp (hall first (by simp))
    rw [List.cons_append, rangeServices_cons_named env first _ packages w n hn]
    exact ih _ _ (fun s hs => hall s (by simp [hs]))

/-! ## Theorems: the document converter -/

/-- C5 (the claim fails as stated): the document `sampleDocWithPackage` loads,
its one service is named `foo`, the run succeeds, and the document written has
two service packages where the input has one service; and on `sampleDoc` with a
writer that fails, the run does not succeed. -/
theorem convert_package_count_counterexample :
    ((convertKongGatewayToKonnect (sampleEnv sampleDocWithPackage none) {}
        "input.yaml" "output.yaml").1 = Outcome.returned none ∧
      (convertKongGatewayToKonnect (sampleEnv sampleDocWithPackage none) {}
        "input.yaml" "output.yaml").2.written.map (fun c => c.ServicePackages.length) = [2] ∧
      sampleDocWithPackage.Services.length = 1 ∧
      sampleDocWithPackage.Services.map (fun s => s.Name) = [some "foo"]) ∧
    (convertKongGatewayToKonnect (sampleEnv sampleDoc (some "permission denied")) {}
        "input.yaml" "output.yaml").1 = Outcome.returned (some "permission denied") := by
  refine ⟨⟨rfl, rfl, rfl, rfl⟩, rfl⟩

/-- C5 (amended): for every loadable document in which every service has a
non-empty name, the run calls the loader and then the writer, once each; the
document handed to the writer has no service, and its service packages are
those of the input followed by one package per input service, in the order of
the services and with their names, so that with no service package in the
input the two collections have the same length; the run returns what the
writer returned, hence succeeds when the writer does. -/
theorem convert_named_services (env : Collaborators) (w : World)
    (inputFilename outputFilename : String) (doc : Content)
    (hload : env.GetContentFromFiles [inputFilename] = Except.ok doc)
    (hnames : ∀ s ∈ doc.Services, ∃ n, s.Name = some n ∧ n ≠ "") :
    ∃ (out : Content) (added : List FServicePackage),
      convertKongGatewayToKonnect env w inputFilename outputFilename =
        (Outcome.returned (env.WriteContentToFile out outputFilename FileFormat.YAML),
          { events := w.events ++ [IOEvent.load [inputFilename],
              IOEvent.write out outputFilename FileFormat.YAML]
            uuidCalls := w.uuidCalls + doc.Services.length }) ∧
      out.Services = [] ∧
      out.ServicePackages = doc.ServicePackages ++ added ∧
      added.length = doc.Services.length ∧
      added.map (fun sp => sp.Name) = doc.Services.map (fun s => s.Name) ∧
      (doc.ServicePackages = [] →
        out.ServicePackages.length = doc.Services.length ∧
        out.ServicePackages.map (fun sp => sp.Name) = doc.Services.map (fun s => s.Name)) := by
  have hall : ∀ s ∈ doc.Services, s.Name ≠ none := by
    intro s hs
    obtain ⟨n, hn, _⟩ := hnames s hs
    simp [hn]
  obtain ⟨added, hrun, hadded⟩ := rangeServices_all_named env doc.Services doc.ServicePackages
    { w with events := w.events ++ [IOEvent.load [inputFilename]] } hall
  have hlen : added.length = doc.Services.length := by
    simpa using congrArg List.length hadded
  refine ⟨{ doc with ServicePackages := doc.ServicePackages ++ added, Services := [] },
    added, ?_, rfl, rfl, hlen, hadded, ?_⟩
  · simp only [convertKongGatewayToKonnect, hload, Content.DeepCopy, hrun]
    cases env.WriteContentToFile
      { doc with ServicePackages := doc.ServicePackages ++ added, Services := [] }
      outputFilename FileFormat.YAML <;> simp
  · intro hnil
    simp [hnil, hlen, hadded]

/-- Witness of C5 (amended): the document of the conversion test. -/
theorem convert_named_services_witness :
    ∃ (out : Content) (added : List FServicePackage),
      convertKongGatewayToKonnect (sampleEnv sampleDoc none) {} "input.yaml" "output.yaml" =
        (Outcome.returned
            ((sampleEnv sampleDoc none).WriteContentToFile out "output.yaml" FileFormat.YAML),
          { events := ({} : World).events ++ [IOEvent.load ["input.yaml"],
              IOEvent.write out "output.yaml" FileFormat.YAML]
            uuidCalls := ({} : World).uuidCalls + sampleDoc.Services.length }) ∧
      out.Services = [] ∧
      out.ServicePackages = sampleDoc.ServicePackages ++ added ∧
      added.length = sampleDoc.Services.length ∧
      added.map (fun sp => sp.Name) = sampleDoc.Services.map (fun s => s.Name) ∧
      (sampleDoc.ServicePackages = [] →
        out.ServicePackages.length = sampleDoc.Services.length ∧
        out.ServicePackages.map (fun sp => sp.Name) =
          sampleDoc.Services.map (fun s => s.Name)) :=
  convert_named_services (sampleEnv sampleDoc none) {} "input.yaml" "output.yaml" sampleDoc rfl
    (by
      intro s hs
      have hfoo : s = { Name := some "foo", Host := some "foo.example.com" } := by
        simpa [sampleDoc] using hs
      exact ⟨"foo", by rw [hfoo], by decide⟩)

/-- When some service of the loaded document has no name, the run never calls
the writer and does not succeed. -/
theorem convert_nameless_never_writes (env : Collaborators) (w : World)
    (inputFilename outputFilename : String) (doc : Content)
    (hload : env.GetContentFromFiles [inputFilename] = Except.ok doc)
    (hnameless : ∃ s ∈ doc.Services, s.Name = none) :
    (convertKongGatewayToKonnect env w inputFilename outputFilename).2.events =
        w.events ++ [IOEvent.load [inputFilename]] ∧
    (convertKongGatewayToKonnect env w inputFilename outputFilename).2.written = w.written ∧
    (convertKongGatewayToKonnect env w inputFilename outputFilename).1 ≠
      Outcome.returned none := by
  have hev := rangeServices_events env doc.Services doc.ServicePackages
    { w with events := w.events ++ [IOEvent.load [inputFilename]] }
  have hno := rangeServices_some_nameless env doc.Services doc.ServicePackages
    { w with events := w.events ++ [IOEvent.load [inputFilename]] } hnameless
  rcases hrs : rangeServices env doc.Services doc.ServicePackages
    { w with events := w.events ++ [IOEvent.load [inputFilename]] } with ⟨res, w2⟩
  rw [hrs] at hev hno
  simp only at hev hno
  rcases res with (err | final) | _
  · simp [convertKongGatewayToKonnect, hload, Content.DeepCopy, hrs, hev, World.written,
      List.filterMap_append]
  · exact absurd rfl (hno final)
  · simp [convertKongGatewayToKonnect, hload, Content.DeepCopy, hrs, hev, World.written,
      List.filterMap_append]

/-- When the first service without a name has an identifier, the run returns
the error that names this identifier. -/
theorem convert_first_nameless_with_id (env : Collaborators) (w : World)
    (inputFilename outputFilename : String) (doc : Content)
    (named : List FService) (service : FService) (rest : List FService) (id : String)
    (hload : env.GetContentFromFiles [inputFilename] = Except.ok doc)
    (hsplit : doc.Services = named ++ service :: rest)
    (hnamed : ∀ s ∈ named, s.Name ≠ none)
    (hname : service.Name = none) (hid : service.ID = some id) :
    (convertKongGatewayToKonnect env w inputFilename outputFilename).1 =
      Outcome.returned (some (missingNameError id)) := by
  have hfirst := rangeServices_first_nameless env named service rest hname doc.ServicePackages
    { w with events := w.events ++ [IOEvent.load [inputFilename]] } hnamed
  rw [← hsplit, hid] at hfirst
  rcases hrs : rangeServices env doc.Services doc.ServicePackages
    { w with events := w.events ++ [IOEvent.load [inputFilename]] } with ⟨res, w2⟩
  rw [hrs] at hfirst
  simp only at hfirst
  subst hfirst
  simp [convertKongGatewayToKonnect, hload, Content.DeepCopy, hrs]

/-- A collection with a service without a name splits at the first of them. -/
theorem exists_first_nameless (services : List FService)
    (hnameless : ∃ s ∈ services, s.Name = none) :
    ∃ (named : List FService) (service : FService) (rest : List FService),
      services = named ++ service :: rest ∧
      (∀ s ∈ named, s.Name ≠ none) ∧
      service.Name = none := by
  induction services with
  | nil => simp at hnameless
  | cons first others ih =>
    cases hfirst : first.Name with
    | none => exact ⟨[], first, others, rfl, by simp, hfirst⟩
    | some n =>
      obtain ⟨s, hs, hnone⟩ := hnameless
      have hothers : ∃ t ∈ others, t.Name = none := by
        rcases List.mem_cons.mp hs with rfl | hrest
        · rw [hfirst] at hnone
          exact Option.noConfusion hnone
        · exact ⟨s, hrest, hnone⟩
      obtain ⟨named, service, rest, hsplit, hnamed, hname⟩ := ih hothers
      refine ⟨first :: named, service, rest, by rw [hsplit, List.cons_append], ?_, hname⟩
      intro t ht
      rcases List.mem_cons.mp ht with rfl | hin
      · simp [hfirst]
      · exact hnamed t hin

/-- C6: for every document the loader returns, which has passed its check
that every service has a name or an identifier, and in which some service has
no name: the run returns the error of the first service without a name in the
order of the document, the error that names its identifier; the loader was
called, the writer was not, and nothing was written. -/
theorem convert_nameless_service_error (env : Collaborators) (w : World)
    (inputFilename outputFilename : String) (doc : Content)
    (hload : env.GetContentFromFiles [inputFilename] = Except.ok doc)
    (hvalid : doc.schemaValid = true)
    (hnameless : ∃ s ∈ doc.Services, s.Name = none) :
    ∃ (named : List FService) (service : FService) (rest : List FService) (id : String),
      doc.Services = named ++ service :: rest ∧
      (∀ s ∈ named, s.Name ≠ none) ∧
      service.Name = none ∧
      service.ID = some id ∧
      (∀ w2 : World, kongServiceToKonnectServicePackage env w2 service =
        (Outcome.returned ({}, some (missingNameError id)), w2)) ∧
      (convertKongGatewayToKonnect env w inputFilename outputFilename).1 =
        Outcome.returned (some (missingNameError id)) ∧
      (convertKongGatewayToKonnect env w inputFilename outputFilename).2.events =
        w.events ++ [IOEvent.load [inputFilename]] ∧
      (convertKongGatewayToKonnect env w inputFilename outputFilename).2.written =
        w.written := by
  obtain ⟨named, service, rest, hsplit, hnamed, hname⟩ :=
    exists_first_nameless doc.Services hnameless
  have hmem : service ∈ doc.Services := by
    rw [hsplit]
    simp
  have hcheck : service.Name.isSome || service.ID.isSome = true := by
    have hall := List.all_eq_true.mp hvalid service hmem
    simpa using hall
  obtain ⟨id, hid⟩ : ∃ id, service.ID = some id := by
    rw [hname] at hcheck
    exact Option.isSome_iff_exists.mp (by simpa using hcheck)
  have hwrites := convert_nameless_never_writes env w inputFilename outputFilename doc hload
    hnameless
  refine ⟨named, service, rest, id, hsplit, hnamed, hname, hid, ?_,
    convert_first_nameless_with_id env w inputFilename outputFilename doc named service rest id
      hload hsplit hnamed hname hid,
    hwrites.1, hwrites.2.1⟩
  intro w2
  simp [kongServiceToKonnectServicePackage, hname, hid]

/-- Witness of C6: the document `sampleDocNameless`, whose second service of
three has the identifier `service-id` and no name. -/
theorem convert_nameless_service_error_witness :
    ∃ (named : List FService) (service : FService) (rest : List FService) (id : String),
      sampleDocNameless.Services = named ++ service :: rest ∧
      (∀ s ∈ named, s.Name ≠ none) ∧
      service.Name = none ∧
      service.ID = some id ∧
      (∀ w2 : World, kongServiceToKonnectServicePackage (sampleEnv sampleDocNameless none) w2
          service = (Outcome.returned ({}, some (missingNameError id)), w2)) ∧
      (convertKongGatewayToKonnect (sampleEnv sampleDocNameless none) {}
          "input.yaml" "output.yaml").1 = Outcome.returned (some (missingNameError id)) ∧
      (convertKongGatewayToKonnect (sampleEnv sampleDocNameless none) {}
          "input.yaml" "output.yaml").2.events =
        ({} : World).events ++ [IOEvent.load ["input.yaml"]] ∧
      (convertKongGatewayToKonnect (sampleEnv sampleDocNameless none) {}
          "input.yaml" "output.yaml").2.written = ({} : World).written :=
  convert_nameless_service_error (sampleEnv sampleDocNameless none) {}
    "input.yaml" "output.yaml" sampleDocNameless rfl rfl
    ⟨{ ID := some "service-id", Host := some "mockbin.org" }, by simp [sampleDocNameless], rfl⟩

/-- C7: for every successful run, the loader returned a document and the one
document handed to the writer agrees with it on every collection other than
the services and the service packages, and on the format version and the
workspace. -/
theorem convert_other_collections_unchanged (env : Collaborators) (w : World)
    (inputFilename outputFilename : String)
    (hrun : (convertKongGatewayToKonnect env w inputFilename outputFilename).1 =
      Outcome.returned none) :
    ∃ (doc out : Content),
      env.GetContentFromFiles [inputFilename] = Except.ok doc ∧
      (convertKongGatewayToKonnect env w inputFilename outputFilename).2.events =
        w.events ++ [IOEvent.load [inputFilename],
          IOEvent.write out outputFilename FileFormat.YAML] ∧
      out.Routes = doc.Routes ∧
      out.Consumers = doc.Consumers ∧
      out.Plugins = doc.Plugins ∧
      out.Upstreams = doc.Upstreams ∧
      out.Certificates = doc.Certificates ∧
      out.CACertificates = doc.CACertificates ∧
      out.RBACRoles = doc.RBACRoles ∧
      out.FormatVersion = doc.FormatVersion ∧
      out.Workspace = doc.Workspace ∧
      out = { doc with Services := out.Services, ServicePackages := out.ServicePackages } := by
  cases hload : env.GetContentFromFiles [inputFilename] with
  | error err => simp [convertKongGatewayToKonnect, hload] at hrun
  | ok doc =>
    have hev := rangeServices_events env doc.Services doc.ServicePackages
      { w with events := w.events ++ [IOEvent.load [inputFilename]] }
    rcases hrs : rangeServices env doc.Services doc.ServicePackages
      { w with events := w.events ++ [IOEvent.load [inputFilename]] } with ⟨res, w2⟩
    rw [hrs] at hev
    simp only at hev
    rcases res with (err | final) | _
    · simp [convertKongGatewayToKonnect, hload, Content.DeepCopy, hrs] at hrun
    · refine ⟨doc, { doc with ServicePackages := final, Services := [] }, rfl, ?_,
        rfl, rfl, rfl, rfl, rfl, rfl, rfl, rfl, rfl, rfl⟩
      simp only [convertKongGatewayToKonnect, hload, Content.DeepCopy, hrs]
      cases env.WriteContentToFile { doc with ServicePackages := final, Services := [] }
        outputFilename FileFormat.YAML <;> simp [hev]
    · simp [convertKongGatewayToKonnect, hload, Content.DeepCopy, hrs] at hrun

/-- Witness of C7: the run on the document of the conversion test, which has a
route. -/
theorem convert_other_collections_unchanged_witness :
    ∃ (doc out : Content),
      (sampleEnv sampleDoc none).GetContentFromFiles ["input.yaml"] = Except.ok doc ∧
      (convertKongGatewayToKonnect (sampleEnv sampleDoc none) {}
          "input.yaml" "output.yaml").2.events =
        ({} : World).events ++ [IOEvent.load ["input.yaml"],
          IOEvent.write out "output.yaml" FileFormat.YAML] ∧
      out.Routes = doc.Routes ∧
      out.Consumers = doc.Consumers ∧
      out.Plugins = doc.Plugins ∧
      out.Upstreams = doc.Upstreams ∧
      out.Certificates = doc.Certificates ∧
      out.CACertificates = doc.CACertificates ∧
      out.RBACRoles = doc.RBACRoles ∧
      out.FormatVersion = doc.FormatVersion ∧
      out.Workspace = doc.Workspace ∧
      out = { doc with Services := out.Services, ServicePackages := out.ServicePackages } :=
  convert_other_collections_unchanged (sampleEnv sampleDoc none) {}
    "input.yaml" "output.yaml" rfl

/-- C8: for every pair of formats that `validConversion` rejects, whatever the
two paths, `Convert` returns the error of `validConversion`, which is not
`nil`, and leaves the world as it was: no call of the loader, no call of the
writer. -/
theorem Convert_rejected_pair (env : Collaborators) (w : World)
    (inputFilename outputFilename : String) (frm tgt : Format)
    (hrej : (validConversion frm tgt).1 = false) :
    Convert env w inputFilename outputFilename frm tgt =
        (Outcome.returned (validConversion frm tgt).2, w) ∧
    (validConversion frm tgt).2 ≠ none ∧
    (Convert env w inputFilename outputFilename frm tgt).2.events = w.events := by
  have hfst : Convert env w inputFilename outputFilename frm tgt =
      (Outcome.returned (validConversion frm tgt).2, w) := by
    unfold Convert
    rcases hv : validConversion frm tgt with ⟨valid, err⟩
    rw [hv] at hrej
    simp only at hrej
    subst hrej
    rfl
  refine ⟨hfst, ?_, by rw [hfst]⟩
  intro hnil
  have := ((validConversion_registry frm tgt).2).mpr hnil
  rw [this] at hrej
  exact Bool.noConfusion hrej

/-- Witness of C8: the reverse pair, from `konnect` to `kong-gateway`. -/
theorem Convert_rejected_pair_witness :
    Convert (sampleEnv sampleDoc none) {} "input.yaml" "output.yaml"
        FormatKonnect FormatKongGateway =
        (Outcome.returned (validConversion FormatKonnect FormatKongGateway).2, {}) ∧
    (validConversion FormatKonnect FormatKongGateway).2 ≠ none ∧
    (Convert (sampleEnv sampleDoc none) {} "input.yaml" "output.yaml"
        FormatKonnect FormatKongGateway).2.events = ({} : World).events :=
  Convert_rejected_pair (sampleEnv sampleDoc none) {} "input.yaml" "output.yaml"
    FormatKonnect FormatKongGateway rfl

/-! ## Lemmas: the packages the loop appends -/

/-- The package made from a named service depends on the world only through
the number of identifiers drawn so far. -/
theorem resultPackage_named (env : Collaborators) (w : World) (service : FService) (n : String)
    (hname : service.Name = some n) :
    (kongServiceToKonnectServicePackage env w service).1.resultPackage =
      { Name := some n
        Description := some ("placeholder description for " ++ n ++ " service package")
        Versions :=
          [{ Version := some "v1"
             Implementation := some
              { Type_ := ImplementationTypeKongGateway
                Kong := some
                  { Service :=
                      some { service with Name := none, ID := some (env.UUID w.uuidCalls) } } } }] } := by
  simp [kongServiceToKonnectServicePackage, hname, UUID, Outcome.resultPackage,
    FService.DeepCopy]

/-- When every service has a name the loop ends normally with the initial
collection followed by `convertedPackages`. -/
theorem rangeServices_named_eq (env : Collaborators) (services : List FService) :
    ∀ (packages : List FServicePackage) (w : World),
      (∀ s ∈ services, s.Name ≠ none) →
      rangeServices env services packages w =
        (Outcome.returned (Except.ok (packages ++ convertedPackages env w.uuidCalls services)),
          { w with uuidCalls := w.uuidCalls + services.length }) := by
  induction services with
  | nil => intro packages w _; simp [rangeServices, convertedPackages]
  | cons service rest ih =>
    intro packages w hall
    obtain ⟨n, hname⟩ := Option.ne_none_iff_exists'.mp (hall service (by simp))
    rw [rangeServices_cons_named env service rest packages w n hname,
      ih _ _ (fun s hs => hall s (by simp [hs]))]
    simp [convertedPackages, resultPackage_named env _ service n hname, Nat.add_assoc,
      Nat.add_comm 1]

/-- The appended packages are as many as the services. -/
theorem convertedPackages_length (env : Collaborators) (services : List FService) :
    ∀ k, (convertedPackages env k services).length = services.length := by
  induction services with
  | nil => intro k; rfl
  | cons service rest ih => intro k; simp [convertedPackages, ih]

/-- The appended package number `i` is made from the service number `i`, with
the identifier of the call number `k + i`. -/
theorem convertedPackages_getElem? (env : Collaborators) (services : List FService) :
    ∀ (k i : Nat), (convertedPackages env k services)[i]? =
      (services[i]?).map fun service =>
        (kongServiceToKonnectServicePackage env { uuidCalls := k + i } service).1.resultPackage := by
  induction services with
  | nil => intro k i; simp [convertedPackages]
  | cons service rest ih =>
    intro k i
    cases i with
    | zero => simp [convertedPackages]
    | succ j =>
      simp only [convertedPackages, List.getElem?_cons_succ, ih]
      have hidx : k + 1 + j = k + (j + 1) := by omega
      rw [hidx]

/-- The appended packages carry the names of the services, in order. -/
theorem convertedPackages_names (env : Collaborators) (services : List FService) :
    ∀ k, (∀ s ∈ services, s.Name ≠ none) →
      (convertedPackages env k services).map (fun sp => sp.Name) =
        services.map (fun s => s.Name) := by
  induction services with
  | nil => intro k _; rfl
  | cons service rest ih =>
    intro k hall
    obtain ⟨n, hname⟩ := Option.ne_none_iff_exists'.mp (hall service (by simp))
    simp [convertedPackages, resultPackage_named env _ service n hname, hname,
      ih (k + 1) (fun s hs => hall s (by simp [hs]))]

/-- A successful run: the loader returned a document all of whose services
have a name, and the world after the run holds the load, then the write of the
document with no service and with `convertedPackages` after its packages. -/
theorem convert_success_shape (env : Collaborators) (w : World)
    (inputFilename outputFilename : String)
    (hrun : (convertKongGatewayToKonnect env w inputFilename outputFilename).1 =
      Outcome.returned none) :
    ∃ doc : Content,
      env.GetContentFromFiles [inputFilename] = Except.ok doc ∧
      (∀ s ∈ doc.Services, s.Name ≠ none) ∧
      (convertKongGatewayToKonnect env w inputFilename outputFilename).2 =
        { events := w.events ++ [IOEvent.load [inputFilename],
            IOEvent.write
              { doc with
                ServicePackages :=
                  doc.ServicePackages ++ convertedPackages env w.uuidCalls doc.Services
                Services := [] }
              outputFilename FileFormat.YAML]
          uuidCalls := w.uuidCalls + doc.Services.length } := by
  cases hload : env.GetContentFromFiles [inputFilename] with
  | error err => simp [convertKongGatewayToKonnect, hload] at hrun
  | ok doc =>
    have hall : ∀ s ∈ doc.Services, s.Name ≠ none := by
      intro s hs hnone
      exact (convert_nameless_never_writes env w inputFilename outputFilename doc hload
        ⟨s, hs, hnone⟩).2.2 hrun
    refine ⟨doc, rfl, hall, ?_⟩
    have hloop := rangeServices_named_eq env doc.Services doc.ServicePackages
      { w with events := w.events ++ [IOEvent.load [inputFilename]] } hall
    simp only [convertKongGatewayToKonnect, hload, Content.DeepCopy, hloop]
    cases env.WriteContentToFile
      { doc with
        ServicePackages := doc.ServicePackages ++ convertedPackages env w.uuidCalls doc.Services
        Services := [] }
      outputFilename FileFormat.YAML <;> simp

/-! ## Lemmas: identifiers of the appended packages -/

/-- The identifiers of the package made from a named service: the one drawn
for it, then those among the remaining fields of the service. -/
theorem identifiers_resultPackage_named (env : Collaborators) (w : World) (service : FService)
    (hname : service.Name ≠ none) :
    (kongServiceToKonnectServicePackage env w service).1.resultPackage.identifiers =
      env.UUID w.uuidCalls :: entityIdentifiers service.Rest := by
  obtain ⟨n, hn⟩ := Option.ne_none_iff_exists'.mp hname
  rw [resultPackage_named env w service n hn]
  simp [FServicePackage.identifiers, FServicePackage.embeddedServices, FService.identifiers]

/-- A string that no call from number `k` on returns and that is not among the
remaining fields of the services does not occur in the appended packages. -/
theorem convertedPackages_not_mem (env : Collaborators) (u : String)
    (services : List FService) :
    ∀ k, (∀ s ∈ services, s.Name ≠ none) →
      (∀ j, u ≠ env.UUID (k + j)) →
      (∀ s ∈ services, u ∉ entityIdentifiers s.Rest) →
      u ∉ (convertedPackages env k services).flatMap FServicePackage.identifiers := by
  induction services with
  | nil => intro k _ _ _; simp [convertedPackages]
  | cons service rest ih =>
    intro k hall hgen hrest
    have htail := ih (k + 1) (fun s hs => hall s (by simp [hs]))
      (fun j => by simpa [Nat.add_assoc, Nat.add_comm 1] using hgen (j + 1))
      (fun s hs => hrest s (by simp [hs]))
    simp only [convertedPackages, List.flatMap_cons, List.mem_append, not_or]
    refine ⟨?_, htail⟩
    rw [identifiers_resultPackage_named env _ service (hall service (by simp))]
    simp only [List.mem_cons, not_or]
    exact ⟨by simpa using hgen 0, hrest service (by simp)⟩

/-- With a generator that never repeats itself, the identifier drawn for the
service number `i` occurs exactly once in the appended packages, provided it is
not among the remaining fields of the services. -/
theorem convertedPackages_count (env : Collaborators) (hinj : Function.Injective env.UUID)
    (services : List FService) :
    ∀ (k i : Nat), (∀ s ∈ services, s.Name ≠ none) →
      i < services.length →
      (∀ s ∈ services, env.UUID (k + i) ∉ entityIdentifiers s.Rest) →
      ((convertedPackages env k services).flatMap FServicePackage.identifiers).count
        (env.UUID (k + i)) = 1 := by
  induction services with
  | nil => intro k i _ hi; simp at hi
  | cons service rest ih =>
    intro k i hall hi hrest
    have hallRest : ∀ s ∈ rest, s.Name ≠ none := fun s hs => hall s (by simp [hs])
    have hrestRest : ∀ s ∈ rest, env.UUID (k + i) ∉ entityIdentifiers s.Rest :=
      fun s hs => hrest s (by simp [hs])
    have hhere : (entityIdentifiers service.Rest).count (env.UUID (k + i)) = 0 :=
      List.count_eq_zero_of_not_mem (hrest service (by simp))
    simp only [convertedPackages, List.flatMap_cons, List.count_append]
    rw [identifiers_resultPackage_named env _ service (hall service (by simp))]
    cases i with
    | zero =>
      have htail := convertedPackages_not_mem env (env.UUID (k + 0)) rest (k + 1) hallRest
        (fun j heq => by have := hinj heq; omega) hrestRest
      rw [List.count_eq_zero_of_not_mem htail]
      simp at hhere
      simp [hhere]
    | succ j =>
      have hidx : k + (j + 1) = k + 1 + j := by omega
      have hne : env.UUID k ≠ env.UUID (k + (j + 1)) := by
        intro heq
        have := hinj heq
        omega
      have htail := ih (k + 1) j hallRest (by simpa using hi)
        (by rw [← hidx]; exact hrestRest)
      rw [← hidx] at htail
      rw [htail]
      show List.count (env.UUID (k + (j + 1))) (env.UUID k :: entityIdentifiers service.Rest)
        + 1 = 1
      rw [List.count_cons_of_ne hne.symm, hhere]

/-! ## Theorems: order of the written packages and fresh identifiers -/

/-- C18: for every successful run, the service packages of the document handed
to the writer are those of the loaded document, unchanged and in their order,
followed by one package per service of the loaded document, the package number
`i` being the one made from the service number `i`; the length is the number
of packages of the input plus the number of its services. -/
theorem convert_appends_after_existing (env : Collaborators) (w : World)
    (inputFilename outputFilename : String)
    (hrun : (convertKongGatewayToKonnect env w inputFilename outputFilename).1 =
      Outcome.returned none) :
    ∃ (doc out : Content) (added : List FServicePackage),
      env.GetContentFromFiles [inputFilename] = Except.ok doc ∧
      (convertKongGatewayToKonnect env w inputFilename outputFilename).2.written =
        w.written ++ [out] ∧
      out.ServicePackages = doc.ServicePackages ++ added ∧
      out.ServicePackages.take doc.ServicePackages.length = doc.ServicePackages ∧
      out.ServicePackages.drop doc.ServicePackages.length = added ∧
      added.length = doc.Services.length ∧
      added.map (fun sp => sp.Name) = doc.Services.map (fun s => s.Name) ∧
      (∀ i : Nat, added[i]? = (doc.Services[i]?).map fun service =>
        (kongServiceToKonnectServicePackage env { uuidCalls := w.uuidCalls + i }
          service).1.resultPackage) ∧
      out.ServicePackages.length = doc.ServicePackages.length + doc.Services.length := by
  obtain ⟨doc, hload, hall, hworld⟩ :=
    convert_success_shape env w inputFilename outputFilename hrun
  refine ⟨doc, { doc with
      ServicePackages := doc.ServicePackages ++ convertedPackages env w.uuidCalls doc.Services
      Services := [] },
    convertedPackages env w.uuidCalls doc.Services, hload, ?_, rfl, ?_, ?_,
    convertedPackages_length env doc.Services _,
    convertedPackages_names env doc.Services _ hall,
    convertedPackages_getElem? env doc.Services _, ?_⟩
  · rw [hworld]
    simp [World.written, List.filterMap_append]
  · simp
  · simp
  · simp [convertedPackages_length]

/-- Witness of C18: the document `sampleDocWithPackage`, which has one service
package before the run and two after it. -/
theorem convert_appends_after_existing_witness :
    ∃ (doc out : Content) (added : List FServicePackage),
      (sampleEnv sampleDocWithPackage none).GetContentFromFiles ["input.yaml"] = Except.ok doc ∧
      (convertKongGatewayToKonnect (sampleEnv sampleDocWithPackage none) {}
          "input.yaml" "output.yaml").2.written = ({} : World).written ++ [out] ∧
      out.ServicePackages = doc.ServicePackages ++ added ∧
      out.ServicePackages.take doc.ServicePackages.length = doc.ServicePackages ∧
      out.ServicePackages.drop doc.ServicePackages.length = added ∧
      added.length = doc.Services.length ∧
      added.map (fun sp => sp.Name) = doc.Services.map (fun s => s.Name) ∧
      (∀ i : Nat, added[i]? = (doc.Services[i]?).map fun service =>
        (kongServiceToKonnectServicePackage (sampleEnv sampleDocWithPackage none)
          { uuidCalls := ({} : World).uuidCalls + i } service).1.resultPackage) ∧
      out.ServicePackages.length = doc.ServicePackages.length + doc.Services.length :=
  convert_appends_after_existing (sampleEnv sampleDocWithPackage none) {}
    "input.yaml" "output.yaml" rfl

/-- C11: for every successful run on a document `doc`, with a generator that
is globally unique with respect to the identifiers of `doc`: the package
number `i` of the appended ones embeds one service, whose identifier is the
one drawn by the call number `i` of the run; it differs from the identifier
the service number `i` had before, it occurs exactly once among the
identifiers of the document handed to the writer, and it differs from the
identifier embedded in every other appended package. -/
theorem convert_fresh_identifiers (env : Collaborators) (w : World)
    (inputFilename outputFilename : String) (doc : Content)
    (hload : env.GetContentFromFiles [inputFilename] = Except.ok doc)
    (hrun : (convertKongGatewayToKonnect env w inputFilename outputFilename).1 =
      Outcome.returned none)
    (hgen : GloballyUnique env.UUID doc.identifiers) :
    ∃ (out : Content) (added : List FServicePackage),
      (convertKongGatewayToKonnect env w inputFilename outputFilename).2.written =
        w.written ++ [out] ∧
      out.ServicePackages = doc.ServicePackages ++ added ∧
      added.length = doc.Services.length ∧
      ∀ (i : Nat) (service : FService), doc.Services[i]? = some service →
        ∃ sp embedded,
          added[i]? = some sp ∧
          sp.embeddedServices = [some embedded] ∧
          embedded.ID = some (env.UUID (w.uuidCalls + i)) ∧
          embedded.ID ≠ service.ID ∧
          out.identifiers.count (env.UUID (w.uuidCalls + i)) = 1 ∧
          ∀ (j : Nat) (other : FServicePackage) (embeddedOther : FService),
            j ≠ i → added[j]? = some other →
            some embeddedOther ∈ other.embeddedServices →
            embeddedOther.ID ≠ embedded.ID := by
  obtain ⟨doc2, hload2, hall, hworld⟩ :=
    convert_success_shape env w inputFilename outputFilename hrun
  have hdoc : doc2 = doc := by
    rw [hload] at hload2
    exact (Except.ok.inj hload2).symm
  subst hdoc
  refine ⟨{ doc2 with
      ServicePackages := doc2.ServicePackages ++ convertedPackages env w.uuidCalls doc2.Services
      Services := [] },
    convertedPackages env w.uuidCalls doc2.Services, ?_, rfl,
    convertedPackages_length env doc2.Services _, ?_⟩
  · rw [hworld]
    simp [World.written, List.filterMap_append]
  intro i service hget
  have hmem : service ∈ doc2.Services := List.getElem?_mem hget
  obtain ⟨n, hname⟩ := Option.ne_none_iff_exists'.mp (hall service hmem)
  have hfresh := hgen.2 (w.uuidCalls + i)
  have hsvc : ∀ s ∈ doc2.Services, env.UUID (w.uuidCalls + i) ∉ s.identifiers := by
    intro s hs hin
    apply hfresh
    simp only [Content.identifiers, List.mem_append, List.mem_flatMap]
    exact Or.inl (Or.inl ⟨s, hs, hin⟩)
  have hpkg : env.UUID (w.uuidCalls + i) ∉
      doc2.ServicePackages.flatMap FServicePackage.identifiers := by
    intro hin
    apply hfresh
    simp only [Content.identifiers, List.mem_append]
    exact Or.inl (Or.inr hin)
  have hother : env.UUID (w.uuidCalls + i) ∉
      (doc2.Routes ++ doc2.Consumers ++ doc2.Plugins ++ doc2.Upstreams ++ doc2.Certificates ++
        doc2.CACertificates ++ doc2.RBACRoles).flatMap entityIdentifiers := by
    intro hin
    apply hfresh
    simp only [Content.identifiers, List.mem_append]
    exact Or.inr hin
  have hrest : ∀ s ∈ doc2.Services,
      env.UUID (w.uuidCalls + i) ∉ entityIdentifiers s.Rest := by
    intro s hs hin
    exact hsvc s hs (by simp [FService.identifiers, hin])
  have hlt : i < doc2.Services.length := by
    by_contra hge
    rw [List.getElem?_eq_none (by omega)] at hget
    exact Option.noConfusion hget
  refine ⟨(kongServiceToKonnectServicePackage env { uuidCalls := w.uuidCalls + i }
      service).1.resultPackage,
    { service with Name := none, ID := some (env.UUID (w.uuidCalls + i)) }, ?_, ?_,
    rfl, ?_, ?_, ?_⟩
  · rw [convertedPackages_getElem?, hget]
    rfl
  · rw [resultPackage_named env _ service n hname]
    simp [FServicePackage.embeddedServices]
  · intro heq
    apply hsvc service hmem
    simp only [FService.identifiers, List.mem_append]
    left
    have hid : service.ID = some (env.UUID (w.uuidCalls + i)) := heq.symm
    simp [hid]
  · simp only [Content.identifiers, List.flatMap_nil, List.nil_append, List.flatMap_append,
      List.count_append]
    rw [List.count_eq_zero_of_not_mem hpkg,
      convertedPackages_count env hgen.1 doc2.Services w.uuidCalls i hall hlt hrest]
    have hzero := List.count_eq_zero_of_not_mem hother
    simp only [List.flatMap_append, List.count_append] at hzero
    omega
  · intro j other embeddedOther hji hgetj hemb
    rw [convertedPackages_getElem?] at hgetj
    cases hsj : doc2.Services[j]? with
    | none => rw [hsj] at hgetj; simp at hgetj
    | some serviceJ =>
      rw [hsj] at hgetj
      obtain ⟨m, hm⟩ := Option.ne_none_iff_exists'.mp
        (hall serviceJ (List.getElem?_mem hsj))
      simp only [Option.map_some', Option.some.injEq] at hgetj
      rw [resultPackage_named env _ serviceJ m hm] at hgetj
      subst hgetj
      simp only [FServicePackage.embeddedServices, List.map_cons, List.map_nil, Option.bind,
        List.mem_singleton, Option.some.injEq] at hemb
      subst hemb
      intro heq
      have := hgen.1 (Option.some.inj heq)
      simp at this
      omega

/-- The sample generator is globally unique with respect to the identifiers of
`sampleDocWithIds`: its strings have different lengths, and each of them starts
with the letter `u`, which none of `s1`, `nested`, `p1`, `r1` does. -/
theorem sampleEnv_globallyUnique (writeErr : Option GoError) :
    GloballyUnique (sampleEnv sampleDocWithIds writeErr).UUID sampleDocWithIds.identifiers := by
  have hgen : ∀ k, (sampleEnv sampleDocWithIds writeErr).UUID k =
      String.mk ('u' :: List.replicate k 'u') := fun _ => rfl
  refine ⟨?_, ?_⟩
  · intro a b hab
    rw [hgen, hgen] at hab
    have hlen := congrArg (fun t : String => t.data.length) hab
    simpa using hlen
  · intro k hmem
    rw [hgen] at hmem
    have hids : sampleDocWithIds.identifiers = ["s1", "nested", "p1", "r1"] := by decide
    rw [hids] at hmem
    simp only [List.mem_cons, List.mem_singleton, List.not_mem_nil, or_false] at hmem
    rcases hmem with h | h | h | h <;>
      · have hdata := congrArg String.data h
        simp at hdata

/-- Witness of C11: the document `sampleDocWithIds`, whose first service has
the identifier `s1` before the run. -/
theorem convert_fresh_identifiers_witness :
    ∃ (out : Content) (added : List FServicePackage),
      (convertKongGatewayToKonnect (sampleEnv sampleDocWithIds none) {}
          "input.yaml" "output.yaml").2.written = ({} : World).written ++ [out] ∧
      out.ServicePackages = sampleDocWithIds.ServicePackages ++ added ∧
      added.length = sampleDocWithIds.Services.length ∧
      ∀ (i : Nat) (service : FService), sampleDocWithIds.Services[i]? = some service →
        ∃ sp embedded,
          added[i]? = some sp ∧
          sp.embeddedServices = [some embedded] ∧
          embedded.ID = some ((sampleEnv sampleDocWithIds none).UUID (({} : World).uuidCalls + i)) ∧
          embedded.ID ≠ service.ID ∧
          out.identifiers.count
            ((sampleEnv sampleDocWithIds none).UUID (({} : World).uuidCalls + i)) = 1 ∧
          ∀ (j : Nat) (other : FServicePackage) (embeddedOther : FService),
            j ≠ i → added[j]? = some other →
            some embeddedOther ∈ other.embeddedServices →
            embeddedOther.ID ≠ embedded.ID :=
  convert_fresh_identifiers (sampleEnv sampleDocWithIds none) {} "input.yaml" "output.yaml"
    sampleDocWithIds rfl rfl (sampleEnv_globallyUnique none)

/-! ## Theorems: package `utils` -/

/-- Joining strings: the first one, then the others joined. -/
theorem stringJoin_cons (line : String) (lines : List String) :
    String.join (line :: lines) = line ++ String.join lines := by
  have hfold : ∀ (rest : List String) (acc : String),
      rest.foldl (fun r s => r ++ s) acc = acc ++ rest.foldl (fun r s => r ++ s) "" := by
    intro rest
    induction rest with
    | nil => intro acc; simp
    | cons x rest ih =>
      intro acc
      simp only [List.foldl_cons]
      rw [ih (acc ++ x), ih ("" ++ x)]
      simp [String.append_assoc]
  simp only [String.join, List.foldl_cons, String.empty_append]
  exact hfold lines line

/-- Joining two lists of strings one after the other. -/
theorem stringJoin_append (xs ys : List String) :
    String.join (xs ++ ys) = String.join xs ++ String.join ys := by
  induction xs with
  | nil => simp [String.join]
  | cons x rest ih => rw [List.cons_append, stringJoin_cons, stringJoin_cons, ih, String.append_assoc]

/-- The loop of `ErrArray.Error` appends one line per error to what it started
from. -/
theorem foldl_error_lines (errors : List (Option GoError)) :
    ∀ init : String,
      errors.foldl (fun res err => res ++ ("\t" ++ fmtError err ++ "\n")) init =
        init ++ String.join (errors.map fun err => "\t" ++ fmtError err ++ "\n") := by
  induction errors with
  | nil => intro init; simp [String.join]
  | cons err rest ih =>
    intro init
    simp only [List.foldl_cons, List.map_cons]
    rw [ih, stringJoin_cons, String.append_assoc]

/-- C16: for every `ErrArray`, `Error()` is `nil` when there is no error, and
otherwise the decimal count of the errors, then ` errors occurred:` and a
newline, then for each error in order a tab, its message and a newline (the
text `<nil>` standing for a nil entry of the slice); so the line of the error
number `i` occurs in the result after the lines of the errors before it and
before the lines of the errors after it. -/
theorem ErrArray_Error_lines (e : ErrArray) :
    (e.Errors = [] → e.Error = "nil") ∧
    (e.Errors ≠ [] → e.Error =
      strconvItoa e.Errors.length ++ " errors occurred:\n" ++
        String.join (e.Errors.map fun err => "\t" ++ fmtError err ++ "\n")) ∧
    (∀ (i : Nat) (message : GoError), e.Errors[i]? = some (some message) →
      e.Error =
        (strconvItoa e.Errors.length ++ " errors occurred:\n" ++
          String.join ((e.Errors.take i).map fun err => "\t" ++ fmtError err ++ "\n")) ++
        ("\t" ++ message ++ "\n") ++
        String.join ((e.Errors.drop (i + 1)).map fun err => "\t" ++ fmtError err ++ "\n")) ∧
    ErrArray.Error {} = "nil" ∧
    ErrArray.Error { Errors := [some "first", some "second"] } =
      "2 errors occurred:\n\tfirst\n\tsecond\n" ∧
    strconvItoa 12 = "12" := by
  have hne : e.Errors ≠ [] → e.Error =
      strconvItoa e.Errors.length ++ " errors occurred:\n" ++
        String.join (e.Errors.map fun err => "\t" ++ fmtError err ++ "\n") := by
    intro h
    have hlen : e.Errors.length ≠ 0 := by simpa using h
    simp only [ErrArray.Error, hlen, if_false]
    exact foldl_error_lines e.Errors _
  refine ⟨?_, hne, ?_, by decide, by decide, by decide⟩
  · intro h
    simp [ErrArray.Error, h]
  · intro i message hget
    have hlt : i < e.Errors.length := by
      by_contra hge
      rw [List.getElem?_eq_none (by omega)] at hget
      exact Option.noConfusion hget
    have hsplit : e.Errors = e.Errors.take i ++ some message :: e.Errors.drop (i + 1) := by
      have hget2 : e.Errors[i] = some message := by
        rw [List.getElem?_eq_getElem hlt] at hget
        exact Option.some.inj hget
      rw [← hget2]
      simp
    have hnonempty : e.Errors ≠ [] := by
      intro hnil
      rw [hnil] at hlt
      exact Nat.not_lt_zero _ hlt
    have hmap : (e.Errors.map fun err => "\t" ++ fmtError err ++ "\n") =
        ((e.Errors.take i).map fun err => "\t" ++ fmtError err ++ "\n") ++
          ("\t" ++ message ++ "\n") ::
            ((e.Errors.drop (i + 1)).map fun err => "\t" ++ fmtError err ++ "\n") := by
      conv_lhs => rw [hsplit]
      simp [fmtError]
    rw [hne hnonempty, hmap, stringJoin_append, stringJoin_cons]
    simp [String.append_assoc]

/-- C17: for every configuration `kc` and every name, `ForWorkspace` called on
a pointer to `kc` returns a configuration whose `Workspace` is the name and
whose other fields are those of `kc`; the receiver points to `kc` after the
call as it did before. -/
theorem ForWorkspace_copies_receiver (kc : KongClientConfig) (name : String) :
    ∃ result : KongClientConfig,
      KongClientConfig.ForWorkspace (some kc) name = (Outcome.returned result, some kc) ∧
      result.Workspace = name ∧
      result.Address = kc.Address ∧
      result.TLSServerName = kc.TLSServerName ∧
      result.TLSCACert = kc.TLSCACert ∧
      result.TLSSkipVerify = kc.TLSSkipVerify ∧
      result.Debug = kc.Debug ∧
      result.SkipWorkspaceCrud = kc.SkipWorkspaceCrud ∧
      result.Headers = kc.Headers ∧
      result.HTTPClient = kc.HTTPClient ∧
      result = { kc with Workspace := name } :=
  ⟨{ kc with Workspace := name }, rfl, rfl, rfl, rfl, rfl, rfl, rfl, rfl, rfl, rfl, rfl⟩

/-! ## Theorems: `CleanAddress` -/

/-- What the replacement leaves and what it removes: the text is the result
followed by a run of `/`, and the result does not end in `/`. -/
theorem replaceAllSlashesAtEnd_split (l : List Char) :
    (∃ k, l = replaceAllSlashesAtEnd l ++ List.replicate k '/') ∧
    (replaceAllSlashesAtEnd l).getLast? ≠ some '/' := by
  induction l with
  | nil => exact ⟨⟨0, rfl⟩, by simp [replaceAllSlashesAtEnd]⟩
  | cons c rest ih =>
    obtain ⟨⟨k, hk⟩, hlast⟩ := ih
    by_cases hmatch : matchSlashesToEnd (c :: rest) = true
    · have hall : ∀ x ∈ c :: rest, x = '/' := by
        simpa [matchSlashesToEnd] using hmatch
      refine ⟨⟨(c :: rest).length, ?_⟩, by simp [replaceAllSlashesAtEnd, hmatch]⟩
      simp only [replaceAllSlashesAtEnd, hmatch, if_true, List.nil_append]
      exact List.eq_replicate_of_mem hall
    · have hstep : replaceAllSlashesAtEnd (c :: rest) = c :: replaceAllSlashesAtEnd rest := by
        simp [replaceAllSlashesAtEnd, hmatch]
      rw [hstep]
      refine ⟨⟨k, by rw [List.cons_append, ← hk]⟩, ?_⟩
      cases hres : replaceAllSlashesAtEnd rest with
      | nil =>
        intro hc
        have hceq : c = '/' := by simpa using hc
        apply hmatch
        rw [hres] at hk
        have hrest : ∀ x ∈ rest, x = '/' := by
          intro x hx
          rw [hk] at hx
          exact List.eq_of_mem_replicate (by simpa using hx)
        simp only [matchSlashesToEnd, List.isEmpty_cons, Bool.not_false, Bool.true_and,
          List.all_eq_true, beq_iff_eq]
        intro x hx
        rcases List.mem_cons.mp hx with rfl | hx
        · exact hceq
        · exact hrest x hx
      | cons d ds =>
        rw [hres] at hlast
        rw [List.getLast?_cons_cons]
        exact hlast

/-- A text that does not end in `/` is left as it is. -/
theorem replaceAllSlashesAtEnd_fixed (l : List Char) (hlast : l.getLast? ≠ some '/') :
    replaceAllSlashesAtEnd l = l := by
  induction l with
  | nil => rfl
  | cons c rest ih =>
    have hmatch : matchSlashesToEnd (c :: rest) = false := by
      by_contra hne
      have hall : ∀ x ∈ c :: rest, x = '/' := by
        simpa [matchSlashesToEnd] using hne
      apply hlast
      rw [List.eq_replicate_of_mem hall]
      simp [List.replicate_succ', List.getLast?_append]
    have hstep : replaceAllSlashesAtEnd (c :: rest) = c :: replaceAllSlashesAtEnd rest := by
      simp [replaceAllSlashesAtEnd, hmatch]
    rw [hstep]
    cases rest with
    | nil => rfl
    | cons d ds =>
      rw [List.getLast?_cons_cons] at hlast
      rw [ih hlast]

/-- C15: for every address, `CleanAddress` returns the address without its
trailing `/` characters: the address is the result followed by a run of `/`
only, the result does not end in `/`, cleaning the result again returns it
unchanged, and an address that does not end in `/` is returned as it is. -/
theorem CleanAddress_removes_trailing_slashes (address : String) :
    (∃ k, address = CleanAddress address ++ String.mk (List.replicate k '/')) ∧
    (CleanAddress address).data <+: address.data ∧
    (CleanAddress address).data.getLast? ≠ some '/' ∧
    CleanAddress (CleanAddress address) = CleanAddress address ∧
    (address.data.getLast? ≠ some '/' → CleanAddress address = address) ∧
    CleanAddress "http://localhost:8001///" = "http://localhost:8001" ∧
    CleanAddress "http://a//b/" = "http://a//b" ∧
    CleanAddress "//" = "" := by
  obtain ⟨⟨k, hk⟩, hlast⟩ := replaceAllSlashesAtEnd_split address.data
  refine ⟨⟨k, ?_⟩, ⟨List.replicate k '/', hk.symm⟩, hlast, ?_, ?_, by decide, by decide,
    by decide⟩
  · apply String.ext
    simpa [CleanAddress] using hk
  · apply String.ext
    simp only [CleanAddress]
    exact replaceAllSlashesAtEnd_fixed _ hlast
  · intro h
    apply String.ext
    simp only [CleanAddress]
    exact replaceAllSlashesAtEnd_fixed _ h

/-! ## Theorems: the header map of `GetKongClient` -/

/-- The position `strings.Index` finds splits the text at its first `:`. -/
theorem stringsIndexColon_spec (l : List Char) :
    (':' ∉ l → stringsIndexColon l = none) ∧
    (':' ∈ l → ∃ m, stringsIndexColon l = some m ∧
      l.take m = l.takeWhile (fun c => c != ':') ∧
      l.drop (m + 1) = (l.dropWhile fun c => c != ':').drop 1 ∧
      l = l.take m ++ ':' :: l.drop (m + 1) ∧
      ':' ∉ l.take m) := by
  induction l with
  | nil => simp [stringsIndexColon]
  | cons c rest ih =>
    by_cases hc : c = ':'
    · subst hc
      simp [stringsIndexColon]
    · refine ⟨?_, ?_⟩
      · intro hnot
        have hrest : ':' ∉ rest := fun h => hnot (List.mem_cons_of_mem _ h)
        simp [stringsIndexColon, hc, ih.1 hrest]
      · intro hin
        have hrest : ':' ∈ rest := by
          rcases List.mem_cons.mp hin with h | h
          · exact absurd h.symm hc
          · exact h
        obtain ⟨m, hm, htake, hdrop, hsplit, hnotin⟩ := ih.2 hrest
        refine ⟨m + 1, by simp [stringsIndexColon, hc, hm], ?_, ?_, ?_, ?_⟩
        · simp [List.takeWhile_cons, hc, htake]
        · simp [List.dropWhile_cons, hc, hdrop]
        · simp only [List.take_succ_cons, List.drop_succ_cons, List.cons_append]
          rw [← hsplit]
        · simp only [List.take_succ_cons, List.mem_cons, not_or]
          exact ⟨fun h => hc h.symm, hnotin⟩

/-- What `strings.SplitN(s, ":", 2)` returns: the string alone when it has no
`:`, and otherwise the text before its first `:` and the text after it. -/
theorem stringsSplitN2_spec (s : String) :
    (':' ∉ s.data → stringsSplitN2 s = [s]) ∧
    (':' ∈ s.data →
      stringsSplitN2 s = [textBeforeFirstColon s, textAfterFirstColon s] ∧
      s = textBeforeFirstColon s ++ ":" ++ textAfterFirstColon s ∧
      ':' ∉ (textBeforeFirstColon s).data) := by
  refine ⟨?_, ?_⟩
  · intro hnot
    simp [stringsSplitN2, (stringsIndexColon_spec s.data).1 hnot]
  · intro hin
    obtain ⟨m, hm, htake, hdrop, hsplit, hnotin⟩ := (stringsIndexColon_spec s.data).2 hin
    refine ⟨?_, ?_, ?_⟩
    · simp [stringsSplitN2, hm, textBeforeFirstColon, textAfterFirstColon, htake, hdrop]
    · apply String.ext
      simp only [textBeforeFirstColon, textAfterFirstColon, String.data_append]
      rw [← htake, ← hdrop]
      simpa using hsplit
    · simp only [textBeforeFirstColon]
      rw [← htake]
      exact hnotin

/-- Reading a map after the assignment `headers[key] = value`. -/
theorem lookup_assign (headers : Header) (key : String) (value : List String) (k : String) :
    List.lookup k (Header.assign headers key value) =
      if k = key then some value else List.lookup k headers := by
  induction headers with
  | nil =>
    by_cases hk : k = key
    · simp [Header.assign, List.lookup, hk]
    · have hb : (k == key) = false := by simpa using hk
      simp [Header.assign, List.lookup, hk, hb]
  | cons entry rest ih =>
    obtain ⟨k0, v0⟩ := entry
    by_cases h0 : k0 = key
    · subst h0
      by_cases hk : k = k0
      · simp [Header.assign, List.lookup, hk]
      · have hb : (k == k0) = false := by simpa using hk
        simp [Header.assign, List.lookup, hk, hb]
    · by_cases hk0 : k = k0
      · subst hk0
        simp [Header.assign, List.lookup, h0]
      · have hb : (k == k0) = false := by simpa using hk0
        simp [Header.assign, List.lookup, h0, hb, ih]

/-- Reading the map after one pass of the loop body: a string with a `:` sets
the key before its first `:` to the one value after it, a string without a `:`
changes nothing. -/
theorem lookup_rangeHeaders_step (headers : Header) (keyValue key : String) :
    List.lookup key (rangeHeaders [keyValue] headers) =
      if ':' ∈ keyValue.data ∧ textBeforeFirstColon keyValue = key then
        some [textAfterFirstColon keyValue]
      else List.lookup key headers := by
  by_cases hin : ':' ∈ keyValue.data
  · have hsplit := ((stringsSplitN2_spec keyValue).2 hin).1
    simp only [rangeHeaders, List.foldl_cons, List.foldl_nil, hsplit]
    simp only [List.length_cons, List.length_nil, ge_iff_le, Nat.le_refl, if_true,
      List.getD_cons_zero, List.getD_cons_succ, lookup_assign, hin, true_and]
    by_cases hk : key = textBeforeFirstColon keyValue
    · simp [hk]
    · have hk2 : ¬ textBeforeFirstColon keyValue = key := fun h => hk h.symm
      simp [hk, hk2]
  · have hsplit := (stringsSplitN2_spec keyValue).1 hin
    simp [rangeHeaders, hsplit, hin]

/-- Reading the map after the loop: the value of a key is set by the last
string that has a `:` and this key before its first `:`; without such a string
it is what it was before the loop. -/
theorem lookup_rangeHeaders (optHeaders : List String) (headers : Header) (key : String) :
    List.lookup key (rangeHeaders optHeaders headers) =
      match (optHeaders.filter fun s =>
          decide (':' ∈ s.data ∧ textBeforeFirstColon s = key)).getLast? with
      | some s => some [textAfterFirstColon s]
      | none => List.lookup key headers := by
  induction optHeaders using List.reverseRecOn with
  | nil => simp [rangeHeaders]
  | append_singleton front keyValue ih =>
    have hfold : rangeHeaders (front ++ [keyValue]) headers =
        rangeHeaders [keyValue] (rangeHeaders front headers) := by
      simp [rangeHeaders, List.foldl_append]
    rw [hfold, lookup_rangeHeaders_step, ih, List.filter_append]
    by_cases hp : ':' ∈ keyValue.data ∧ textBeforeFirstColon keyValue = key
    · simp [hp, List.filter_cons]
    · simp [hp, List.filter_cons]

/-- C20: the header map `GetKongClient` builds, for every configuration and
every list of header strings.  The function returns before the header block
when the certificate check fails, and panics before it when the type assertion
on the default transport fails; otherwise no map is built for the empty list
and the map of the loop is built for any other list.  In that map a string
without a `:` splits into itself alone and sets nothing; a string with a `:`
is the text before its first `:`, the `:`, and the text after it, later `:` and
spaces included, and sets the key before to the one value after; so the value
of a key in the map is the one set by the last string with this key, and a key
no string has is not in the map. -/
theorem GetKongClient_header_map (env : ClientSurroundings) (opt : KongClientConfig) :
    (GetKongClientHeaders env opt =
      if opt.TLSCACert ≠ "" ∧ env.AppendCertsFromPEM opt.TLSCACert = false then
        Outcome.returned (Except.error "failed to load TLSCACert")
      else if env.DefaultTransportIsTransport = false then Outcome.panicked
      else if opt.Headers = [] then Outcome.returned (Except.ok none)
      else Outcome.returned (Except.ok (some (rangeHeaders opt.Headers [])))) ∧
    (∀ headers : Header,
      GetKongClientHeaders env opt = Outcome.returned (Except.ok (some headers)) →
      opt.Headers ≠ [] ∧
      ∀ key : String, List.lookup key headers =
        ((opt.Headers.filter fun s =>
            decide (':' ∈ s.data ∧ textBeforeFirstColon s = key)).getLast?).map
          fun s => [textAfterFirstColon s]) ∧
    (∀ key : String, List.lookup key (rangeHeaders opt.Headers []) =
      ((opt.Headers.filter fun s =>
          decide (':' ∈ s.data ∧ textBeforeFirstColon s = key)).getLast?).map
        fun s => [textAfterFirstColon s]) ∧
    (∀ s : String, ':' ∉ s.data → stringsSplitN2 s = [s]) ∧
    (∀ s : String, ':' ∈ s.data →
      stringsSplitN2 s = [textBeforeFirstColon s, textAfterFirstColon s] ∧
      s = textBeforeFirstColon s ++ ":" ++ textAfterFirstColon s ∧
      ':' ∉ (textBeforeFirstColon s).data) ∧
    (∀ s ∈ opt.Headers, ':' ∈ s.data →
      ∃ later ∈ opt.Headers, textBeforeFirstColon later = textBeforeFirstColon s ∧
        List.lookup (textBeforeFirstColon s) (rangeHeaders opt.Headers []) =
          some [textAfterFirstColon later]) ∧
    (∀ key : String, (∀ s ∈ opt.Headers, ':' ∈ s.data → textBeforeFirstColon s ≠ key) →
      List.lookup key (rangeHeaders opt.Headers []) = none) ∧
    GetKongClientHeaders { AppendCertsFromPEM := fun _ => false }
        { Headers := ["Authorization: Bearer a:b", "no-colon", "X-Key:1", "X-Key:2", ":"] } =
      Outcome.returned (Except.ok
        (some [("Authorization", [" Bearer a:b"]), ("X-Key", ["2"]), ("", [""])])) ∧
    GetKongClientHeaders { AppendCertsFromPEM := fun _ => false } {} =
      Outcome.returned (Except.ok none) ∧
    GetKongClientHeaders { AppendCertsFromPEM := fun _ => false }
        { TLSCACert := "not a pem", Headers := ["a:b"] } =
      Outcome.returned (Except.error "failed to load TLSCACert") ∧
    GetKongClientHeaders { AppendCertsFromPEM := fun _ => true, DefaultTransportIsTransport := false }
        { Headers := ["a:b"] } = Outcome.panicked := by
  have hlookup : ∀ key : String, List.lookup key (rangeHeaders opt.Headers []) =
      ((opt.Headers.filter fun s =>
          decide (':' ∈ s.data ∧ textBeforeFirstColon s = key)).getLast?).map
        fun s => [textAfterFirstColon s] := by
    intro key
    rw [lookup_rangeHeaders]
    cases (opt.Headers.filter fun s =>
      decide (':' ∈ s.data ∧ textBeforeFirstColon s = key)).getLast? <;> simp [List.lookup]
  have hshape : GetKongClientHeaders env opt =
      if opt.TLSCACert ≠ "" ∧ env.AppendCertsFromPEM opt.TLSCACert = false then
        Outcome.returned (Except.error "failed to load TLSCACert")
      else if env.DefaultTransportIsTransport = false then Outcome.panicked
      else if opt.Headers = [] then Outcome.returned (Except.ok none)
      else Outcome.returned (Except.ok (some (rangeHeaders opt.Headers []))) := by
    unfold GetKongClientHeaders
    by_cases hcert : opt.TLSCACert = ""
    · cases htransport : env.DefaultTransportIsTransport <;>
        by_cases hnil : opt.Headers = [] <;>
          simp [hcert, htransport, hnil, List.length_pos]
    · cases hpem : env.AppendCertsFromPEM opt.TLSCACert <;>
        cases htransport : env.DefaultTransportIsTransport <;>
          by_cases hnil : opt.Headers = [] <;>
            simp [hcert, hpem, htransport, hnil, List.length_pos]
  refine ⟨hshape, ?_, hlookup, fun s => (stringsSplitN2_spec s).1,
    fun s => (stringsSplitN2_spec s).2, ?_, ?_, rfl, rfl, rfl, rfl⟩
  · intro headers hbuilt
    rw [hshape] at hbuilt
    split_ifs at hbuilt with h1 h2 h3
    all_goals try (simp at hbuilt; done)
    have hmap : rangeHeaders opt.Headers [] = headers := by
      simpa using hbuilt
    exact ⟨h3, fun key => by rw [← hmap]; exact hlookup key⟩
  · intro s hs hin
    rw [hlookup]
    have hmem : s ∈ opt.Headers.filter fun t =>
        decide (':' ∈ t.data ∧ textBeforeFirstColon t = textBeforeFirstColon s) := by
      simp [List.mem_filter, hs, hin]
    cases hlast : (opt.Headers.filter fun t =>
        decide (':' ∈ t.data ∧ textBeforeFirstColon t = textBeforeFirstColon s)).getLast? with
    | none =>
      rw [List.getLast?_eq_none_iff] at hlast
      rw [hlast] at hmem
      simp at hmem
    | some later =>
      have hlater := List.mem_of_mem_getLast? hlast
      rw [List.mem_filter] at hlater
      exact ⟨later, hlater.1, (of_decide_eq_true hlater.2).2, rfl⟩
  · intro key hnone
    rw [hlookup]
    have hfilter : (opt.Headers.filter fun s =>
        decide (':' ∈ s.data ∧ textBeforeFirstColon s = key)) = [] := by
      rw [List.filter_eq_nil_iff]
      intro s hs
      simp only [decide_eq_true_eq, not_and]
      exact fun hin => hnone s hs hin
    rw [hfilter]
    rfl

/-! ## Theorems: error messages and dispatch -/

/-- C12: for every pair of formats that `validConversion` rejects, the error is
exactly `"cannot convert from '" ++ from ++ "' to '" ++ to ++ "' format"`, both
formats inserted as they are; the pair is rejected either because `from` has no
entry in `conversions` or because its entry has no key `to`, and the message is
the same in both cases. -/
theorem validConversion_rejected_message (frm tgt : Format)
    (hrej : (validConversion frm tgt).1 = false) :
    validConversion frm tgt =
      (false, some ("cannot convert from '" ++ frm ++ "' to '" ++ tgt ++ "' format")) ∧
    (conversions.lookup frm = none ∨
      ∃ fromMap, conversions.lookup frm = some fromMap ∧ fromMap.lookup tgt = none) := by
  cases hfrom : conversions.lookup frm with
  | none =>
    exact ⟨by simp [validConversion, hfrom, cannotConvertError], Or.inl rfl⟩
  | some fromMap =>
    cases hto : fromMap.lookup tgt with
    | none =>
      exact ⟨by simp [validConversion, hfrom, hto, cannotConvertError],
        Or.inr ⟨fromMap, rfl, hto⟩⟩
    | some b => simp [validConversion, hfrom, hto] at hrej

/-- Witness of C12: the reverse pair, whose `from` has no entry in the table,
and the identity pair on `kong-gateway`, whose entry does not contain `to`. -/
theorem validConversion_rejected_message_witness :
    (validConversion "konnect" "kong-gateway" =
        (false, some ("cannot convert from '" ++ "konnect" ++ "' to '" ++ "kong-gateway" ++
          "' format")) ∧
      (conversions.lookup "konnect" = none ∨
        ∃ fromMap, conversions.lookup "konnect" = some fromMap ∧
          fromMap.lookup "kong-gateway" = none)) ∧
    (validConversion "kong-gateway" "kong-gateway" =
        (false, some ("cannot convert from '" ++ "kong-gateway" ++ "' to '" ++ "kong-gateway" ++
          "' format")) ∧
      (conversions.lookup "kong-gateway" = none ∨
        ∃ fromMap, conversions.lookup "kong-gateway" = some fromMap ∧
          fromMap.lookup "kong-gateway" = none)) :=
  ⟨validConversion_rejected_message "konnect" "kong-gateway" rfl,
   validConversion_rejected_message "kong-gateway" "kong-gateway" rfl⟩

/-- C13: for every key whose lower-case form is neither `kong-gateway` nor
`konnect`, `ParseFormat` returns the empty format and the error
`"invalid format: '" ++ key ++ "'"`, in which the key occurs as it was
supplied, not lower-cased. -/
theorem ParseFormat_unknown_key_verbatim (caseTable : Char → Char) (key : String)
    (hunknown : stringsToLower caseTable key ≠ FormatKongGateway ∧
      stringsToLower caseTable key ≠ FormatKonnect) :
    ParseFormat caseTable key = ("", some ("invalid format: '" ++ key ++ "'")) ∧
    (∃ err, (ParseFormat caseTable key).2 = some err ∧ Contains err key) := by
  have hparse : ParseFormat caseTable key =
      ("", some ("invalid format: '" ++ key ++ "'")) := by
    simp [ParseFormat, hunknown.1, hunknown.2, invalidFormatError]
  refine ⟨hparse, _, by rw [hparse], "invalid format: '", "'", rfl⟩

/-- Witness of C13: the key `K42` of mixed case, with the identity as the case
table of the runes above ASCII; the message holds `K42`, not `k42`. -/
theorem ParseFormat_unknown_key_verbatim_witness :
    ParseFormat (fun c => c) "K42" = ("", some ("invalid format: '" ++ "K42" ++ "'")) ∧
    (∃ err, (ParseFormat (fun c => c) "K42").2 = some err ∧ Contains err "K42") :=
  ParseFormat_unknown_key_verbatim (fun c => c) "K42" (by
    have hlow : stringsToLower (fun c => c) "K42" = "k42" := by
      rw [stringsToLower_eq_map]
      simp [unicodeToLower, asciiToLower]
    rw [hlow]
    exact ⟨by decide, by decide⟩)

/-- C14: for every input path on which the loader fails, the run returns the
error of the loader as it is; the loader was called once and the writer was
not called. -/
theorem convert_loader_error (env : Collaborators) (w : World)
    (inputFilename outputFilename : String) (err : GoError)
    (hload : env.GetContentFromFiles [inputFilename] = Except.error err) :
    convertKongGatewayToKonnect env w inputFilename outputFilename =
      (Outcome.returned (some err),
        { w with events := w.events ++ [IOEvent.load [inputFilename]] }) ∧
    (convertKongGatewayToKonnect env w inputFilename outputFilename).2.written = w.written ∧
    (convertKongGatewayToKonnect env w inputFilename outputFilename).2.uuidCalls =
      w.uuidCalls := by
  have hrun : convertKongGatewayToKonnect env w inputFilename outputFilename =
      (Outcome.returned (some err),
        { w with events := w.events ++ [IOEvent.load [inputFilename]] }) := by
    simp [convertKongGatewayToKonnect, hload]
  refine ⟨hrun, ?_, ?_⟩
  · rw [hrun]; simp [World.written, List.filterMap_append]
  · rw [hrun]

/-- Witness of C14: the file `missing.yaml`, which the sample loader does not
know. -/
theorem convert_loader_error_witness :
    convertKongGatewayToKonnect (sampleEnv sampleDoc none) {} "missing.yaml" "output.yaml" =
      (Outcome.returned (some "open: no such file or directory"),
        { ({} : World) with events := ({} : World).events ++ [IOEvent.load ["missing.yaml"]] }) ∧
    (convertKongGatewayToKonnect (sampleEnv sampleDoc none) {}
      "missing.yaml" "output.yaml").2.written = ({} : World).written ∧
    (convertKongGatewayToKonnect (sampleEnv sampleDoc none) {}
      "missing.yaml" "output.yaml").2.uuidCalls = ({} : World).uuidCalls :=
  convert_loader_error (sampleEnv sampleDoc none) {} "missing.yaml" "output.yaml"
    "open: no such file or directory" rfl

/-- C19: for every pair of formats that `validConversion` accepts, the guard
`from == FormatKongGateway && to == FormatKonnect` of the first case of the
switch in `Convert` holds and `Convert` is the call of
`convertKongGatewayToKonnect` on the two paths; the default case is not
reached. -/
theorem Convert_accepted_pair_dispatches (env : Collaborators) (w : World)
    (inputFilename outputFilename : String) (frm tgt : Format)
    (hvalid : (validConversion frm tgt).1 = true) :
    (frm = FormatKongGateway ∧ tgt = FormatKonnect) ∧
    Convert env w inputFilename outputFilename frm tgt =
      convertKongGatewayToKonnect env w inputFilename outputFilename := by
  have key := (validConversion_registry frm tgt).1
  by_cases hpair : frm = FormatKongGateway ∧ tgt = FormatKonnect
  · refine ⟨hpair, ?_⟩
    unfold Convert
    rw [key]
    simp [hpair]
  · rw [key] at hvalid
    simp [hpair] at hvalid

/-- Witness of C19: the pair from `kong-gateway` to `konnect`. -/
theorem Convert_accepted_pair_dispatches_witness :
    (FormatKongGateway = FormatKongGateway ∧ FormatKonnect = FormatKonnect) ∧
    Convert (sampleEnv sampleDoc none) {} "input.yaml" "output.yaml"
        FormatKongGateway FormatKonnect =
      convertKongGatewayToKonnect (sampleEnv sampleDoc none) {} "input.yaml" "output.yaml" :=
  Convert_accepted_pair_dispatches (sampleEnv sampleDoc none) {} "input.yaml" "output.yaml"
    FormatKongGateway FormatKonnect rfl

end Deck
